import Mathlib

/-!
Formal model of the PasaTanda payment backend (x402 payment engine).

The development shallowly embeds the TypeScript sources:

* `src/x402/types/x402.types.ts` — data model, `usdToAtomic`,
  settlement-header codec;
* `src/x402/services/x402-job-queue.service.ts` — sequential submission
  queue (promise chain);
* `src/x402/services/x402-facilitator.service.ts` — `verify`;
* `src/x402/services/x402-payment.service.ts` — payment-job registry
  (`createPaymentJob`, `processPayment`, `verifyAndSettle`,
  `confirmPayment`, expiration timer callback, `cleanupExpiredJobs`);
* `x402.controller.ts` — `handleFiatPayment` (method-lock check on the
  fiat path).

JavaScript numbers are IEEE-754 binary64 values.  Every finite double is a
dyadic rational, so doubles are modelled by the type `Dy` of dyadic
rationals `num / 2 ^ exp`, and each JavaScript arithmetic operation is an
exact rational operation followed by the hardware's
round-to-nearest-ties-to-even rounding step, modelled explicitly
(`Dy.roundB64`).  Overflow, subnormals and NaN never arise at the values
considered here.
-/

namespace X402

/-! ### JavaScript numbers as dyadic rationals -/

/-- A dyadic rational `num / 2 ^ exp`: the exact value of a finite IEEE-754
binary64 number (and of intermediate exact products of such numbers).  The
representation is not normalised; value equality is `Dy.sameValue`. -/
structure Dy where
  num : ℤ
  exp : ℕ
deriving DecidableEq

namespace Dy

/-- The dyadic with integer value `n`. -/
def ofInt (n : ℤ) : Dy := ⟨n, 0⟩

/-- The rational value denoted by a dyadic. -/
def toRat (d : Dy) : ℚ := (d.num : ℚ) / 2 ^ d.exp

/-- Value equality of dyadics, by cross-multiplication. -/
def sameValue (a b : Dy) : Prop := a.num * 2 ^ b.exp = b.num * 2 ^ a.exp

instance (a b : Dy) : Decidable (sameValue a b) :=
  inferInstanceAs (Decidable (_ = _))

/-- Exact product of two dyadics (a real-number multiplication, before any
floating-point rounding). -/
def mul (a b : Dy) : Dy := ⟨a.num * b.num, a.exp + b.exp⟩

/-- Floor of a dyadic as an integer (`2 ^ exp` is positive, so floor
division of the numerator). -/
def dyfloor (d : Dy) : ℤ := d.num.fdiv (2 ^ d.exp)

/-- Truncation of a dyadic toward zero. -/
def dytrunc (d : Dy) : ℤ := d.num.tdiv (2 ^ d.exp)

/-- Round a dyadic to the nearest integer, ties to even. -/
def rne (d : Dy) : ℤ :=
  let p : ℤ := 2 ^ d.exp
  let f := d.num.fdiv p
  let r2 := 2 * (d.num - f * p)
  if r2 < p then f
  else if p < r2 then f + 1
  else if f % 2 = 0 then f else f + 1

/-- Fuel-driven base-2 logarithm on naturals, structurally recursive so
that it evaluates by kernel reduction (`Nat.log2` itself is defined by
well-founded recursion and does not). -/
def log2fuel : ℕ → ℕ → ℕ
  | 0, _ => 0
  | fuel + 1, n => if 2 ≤ n then log2fuel fuel (n / 2) + 1 else 0

/-- `⌊log₂ n⌋` (and `0` at `0`); `n` itself is always enough fuel. -/
def ilog2 (n : ℕ) : ℕ := log2fuel n n

/-- `ilog2` agrees with `Nat.log2` (whose defining equation is
`Nat.log2 n = if 2 ≤ n then Nat.log2 (n / 2) + 1 else 0`). -/
theorem log2fuel_eq_log2 (fuel n : ℕ) (h : n ≤ fuel) : log2fuel fuel n = Nat.log2 n := by
  induction fuel generalizing n with
  | zero =>
    interval_cases n
    simp [log2fuel, Nat.log2]
  | succ fuel ih =>
    rw [log2fuel, Nat.log2]
    by_cases h2 : 2 ≤ n
    · rw [if_pos h2, if_pos h2, ih _ (by omega)]
    · rw [if_neg h2, if_neg h2]

theorem ilog2_eq_log2 (n : ℕ) : ilog2 n = Nat.log2 n :=
  log2fuel_eq_log2 n n le_rfl

/-- Floor of the base-2 logarithm of the absolute value of a nonzero
dyadic: `⌊log₂ |num|⌋` shifted by the exponent. -/
def dylog2 (d : Dy) : ℤ := (ilog2 d.num.natAbs : ℤ) - d.exp

/-- Multiply a dyadic by `2 ^ k` for an integer `k` (exact). -/
def shift (d : Dy) (k : ℤ) : Dy :=
  if 0 ≤ k then ⟨d.num * 2 ^ k.toNat, d.exp⟩ else ⟨d.num, d.exp + (-k).toNat⟩

/-- Binary64 rounding (round to nearest, ties to even) of a dyadic in the
normal range: the value a JavaScript arithmetic operation actually stores.
The significand has 53 bits, so a value with binade exponent `e` is rounded
to a multiple of `2 ^ (e - 52)`: scale into `[2^52, 2^53)`, round to the
nearest integer (ties to even), and scale back. -/
def roundB64 (d : Dy) : Dy :=
  if d.num = 0 then ⟨0, 0⟩
  else
    let e := dylog2 d
    let scaled := shift d (52 - e)
    shift ⟨rne scaled, 0⟩ (e - 52)

/-- JavaScript `x * y` on numbers: exact product, rounded to binary64. -/
def jsMul (a b : Dy) : Dy := roundB64 (mul a b)

end Dy

/-- `usdToAtomic` from `x402.types.ts`:
`BigInt(Math.floor(usdAmount * 10_000_000)).toString()`.
The argument is the binary64 value of `usdAmount`; `Math.floor` is exact on
doubles, `BigInt` of an integral double is exact, and `toString` prints the
integer in decimal. -/
def usdToAtomic (usdAmount : Dy) : String :=
  toString (Dy.dyfloor (Dy.jsMul usdAmount (Dy.ofInt 10000000)))

/-- The integer value underlying `usdToAtomic`'s decimal string: the
registry later reads it back with `BigInt(paymentRequirements.maxAmountRequired)`. -/
def usdToAtomicInt (usdAmount : Dy) : ℤ :=
  Dy.dyfloor (Dy.jsMul usdAmount (Dy.ofInt 10000000))

namespace Dy

/-- Dyadics with the same value have the same floor. -/
theorem dyfloor_congr {a b : Dy} (h : sameValue a b) : dyfloor a = dyfloor b := by
  have ha : (0 : ℤ) < 2 ^ a.exp := pow_pos (by norm_num) _
  have hb : (0 : ℤ) < 2 ^ b.exp := pow_pos (by norm_num) _
  unfold dyfloor
  rw [Int.fdiv_eq_ediv _ ha.le, Int.fdiv_eq_ediv _ hb.le,
    (Int.mul_ediv_mul_of_pos a.num (2 ^ a.exp) hb).symm,
    (Int.mul_ediv_mul_of_pos b.num (2 ^ b.exp) ha).symm,
    mul_comm ((2 : ℤ) ^ b.exp) a.num]
  rw [sameValue] at h
  rw [h, mul_comm b.num ((2 : ℤ) ^ a.exp), mul_comm ((2 : ℤ) ^ b.exp) ((2 : ℤ) ^ a.exp)]

/-- On nonnegative dyadics, truncation toward zero is the floor. -/
theorem dytrunc_eq_dyfloor {d : Dy} (h : 0 ≤ d.num) : dytrunc d = dyfloor d := by
  have hb : (0 : ℤ) ≤ 2 ^ d.exp := (pow_pos (by norm_num) _).le
  unfold dytrunc dyfloor
  rw [Int.tdiv_eq_ediv h hb, Int.fdiv_eq_ediv _ hb]

end Dy

/-- C9, counterexample.  The double `230584300923 / 2^8 = 900720003.60546875`
(exactly representable: its significand needs 38 bits) is a USD amount for
which `usdToAtomic` does **not** return the amount times `10^7` truncated
toward zero: the exact product is `9007199254804687.5`, whose binary64
rounding (ties-to-even at this magnitude, where doubles are 2 apart) lands
on `9007199254804688`, so `Math.floor` no longer truncates the exact
product. -/
theorem c9_counterexample :
    usdToAtomic ⟨230584300923, 8⟩ = "9007199254804688" ∧
    toString (Dy.dytrunc (Dy.mul ⟨230584300923, 8⟩ (Dy.ofInt 10000000))) =
      "9007199254804687" ∧
    usdToAtomic ⟨230584300923, 8⟩ ≠
      toString (Dy.dytrunc (Dy.mul ⟨230584300923, 8⟩ (Dy.ofInt 10000000))) :=
  ⟨by decide, by decide, by decide⟩

/-- C9, amended.  `usdToAtomic 10 = "100000000"` (7-decimal fixed point),
and for every nonnegative USD amount whose product with `10^7` is exactly
representable in binary64 (no rounding in `usdAmount * 10_000_000`), the
result is the amount times `10^7` truncated toward zero.  Without the
exactness hypothesis the result is `⌊roundB64 (usd * 10^7)⌋`, which can
exceed the truncated exact product (see `c9_counterexample`). -/
theorem c9_amended :
    usdToAtomic (Dy.ofInt 10) = "100000000" ∧
    ∀ usd : Dy, 0 ≤ usd.num →
      Dy.sameValue (Dy.roundB64 (Dy.mul usd (Dy.ofInt 10000000)))
        (Dy.mul usd (Dy.ofInt 10000000)) →
      usdToAtomic usd = toString (Dy.dytrunc (Dy.mul usd (Dy.ofInt 10000000))) := by
  refine ⟨by decide, fun usd h0 hex => ?_⟩
  have hnum : 0 ≤ (Dy.mul usd (Dy.ofInt 10000000)).num := by
    simpa [Dy.mul, Dy.ofInt] using mul_nonneg h0 (by norm_num : (0 : ℤ) ≤ 10000000)
  unfold usdToAtomic Dy.jsMul
  rw [Dy.dyfloor_congr hex, Dy.dytrunc_eq_dyfloor hnum]

/-- C9, witness for `c9_amended` at the concrete amount 10 USD. -/
theorem c9_amended_witness :
    (0 ≤ (Dy.ofInt 10).num ∧
      Dy.sameValue (Dy.roundB64 (Dy.mul (Dy.ofInt 10) (Dy.ofInt 10000000)))
        (Dy.mul (Dy.ofInt 10) (Dy.ofInt 10000000))) ∧
    usdToAtomic (Dy.ofInt 10) =
      toString (Dy.dytrunc (Dy.mul (Dy.ofInt 10) (Dy.ofInt 10000000))) :=
  ⟨⟨by decide, by decide⟩, c9_amended.2 (Dy.ofInt 10) (by decide) (by decide)⟩

/-! ### Sequential submission queue (`x402-job-queue.service.ts`)

`enqueue<T>(task: () => Promise<T>): Promise<T>` chains each task on the
current `tail` promise and replaces `tail` by
`run.then(() => undefined, () => undefined)`.

A task is modelled denotationally as a function from the shared mutable
state it touches to its own settled outcome (fulfilled value or rejection
reason) together with the state it leaves behind.  Since JavaScript is
single-threaded, concurrently enqueueing callers are an interleaving of
synchronous `enqueue` calls, i.e. a list of tasks in enqueue order; a
`then`-callback only starts after its antecedent promise settles, so the
denotation of the chain threads the state strictly task after task.  The
second component of `tail` discards the outcome — exactly the
`run.then(() => undefined, () => undefined)` that swallows rejections so
the chain continues after a failed task. -/

/-- A queued task: reads/writes the shared state and settles with a value
or a rejection reason. -/
def QTask (σ α : Type) := σ → Except String α × σ

/-- The queue: `tail` is the cumulative state effect of every task
enqueued so far (the settled `tail` promise). -/
structure X402JobQueue (σ α : Type) where
  tail : σ → σ

/-- A fresh queue: `tail = Promise.resolve()`. -/
def X402JobQueue.init (σ α : Type) : X402JobQueue σ α := ⟨fun s => s⟩

/-- `enqueue`: the returned `run` executes the task after everything
enqueued before it; the new tail tracks `run`'s completion, outcome
discarded. -/
def enqueue {σ α : Type} (q : X402JobQueue σ α) (task : QTask σ α) :
    QTask σ α × X402JobQueue σ α :=
  let run : QTask σ α := fun s => task (q.tail s)
  (run, ⟨fun s => (run s).2⟩)

/-- Enqueue a list of tasks in order, collecting each caller's `run`. -/
def enqueueAll {σ α : Type} (q : X402JobQueue σ α) :
    List (QTask σ α) → List (QTask σ α) × X402JobQueue σ α
  | [] => ([], q)
  | t :: ts =>
    let p := enqueue q t
    let rest := enqueueAll p.2 ts
    (p.1 :: rest.1, rest.2)

/-- The state after running a list of tasks sequentially (every task's
state effect applied, whether it succeeded or failed). -/
def stateAfter {σ α : Type} (ts : List (QTask σ α)) (s : σ) : σ :=
  ts.foldl (fun s t => (t s).2) s

theorem enqueueAll_run {σ α : Type} (ts : List (QTask σ α)) :
    ∀ (q : X402JobQueue σ α) (i : ℕ), i < ts.length → ∀ (dflt : QTask σ α) (s : σ),
      ((enqueueAll q ts).1.getD i dflt) s =
        (ts.getD i dflt) (stateAfter (ts.take i) (q.tail s)) := by
  induction ts with
  | nil => intro q i hi; exact absurd hi (by simp)
  | cons t ts ih =>
    intro q i hi dflt s
    cases i with
    | zero => rfl
    | succ i =>
      have := ih (enqueue q t).2 i (by simpa using hi) dflt s
      simpa [enqueueAll, stateAfter, enqueue] using this

theorem enqueueAll_tail {σ α : Type} (ts : List (QTask σ α)) :
    ∀ (q : X402JobQueue σ α) (s : σ),
      (enqueueAll q ts).2.tail s = stateAfter ts (q.tail s) := by
  induction ts with
  | nil => intro q s; rfl
  | cons t ts ih =>
    intro q s
    simpa [enqueueAll, stateAfter, enqueue] using ih (enqueue q t).2 s

/-- C2.  For any sequence of tasks handed to `enqueue` (in enqueue order,
however many callers interleave), the `i`-th caller's promise settles with
the `i`-th task's own outcome, evaluated in the state produced by running
exactly the tasks enqueued before it, in order — i.e. tasks execute
strictly one at a time in enqueue order and each caller gets its own
task's result.  The chain's tail threads the state of *all* tasks,
including failed ones, so a failing task does not prevent any
later-enqueued task from executing. -/
theorem c2_queue_order {σ α : Type} (ts : List (QTask σ α)) (dflt : QTask σ α)
    (s : σ) (i : ℕ) (hi : i < ts.length) :
    (((enqueueAll (X402JobQueue.init σ α) ts).1.getD i dflt) s =
      (ts.getD i dflt) (stateAfter (ts.take i) s)) ∧
    ((enqueueAll (X402JobQueue.init σ α) ts).2.tail s = stateAfter ts s) :=
  ⟨enqueueAll_run ts (X402JobQueue.init σ α) i hi dflt s,
    enqueueAll_tail ts (X402JobQueue.init σ α) s⟩

/-- A failing task for the C2 witness: rejects, records `0` in the state. -/
def wTask0 : QTask (List ℕ) ℕ := fun s => (Except.error "boom", s ++ [0])

/-- A succeeding task for the C2 witness: fulfills with `7`, records `1`. -/
def wTask1 : QTask (List ℕ) ℕ := fun s => (Except.ok 7, s ++ [1])

/-- C2 witness: with a failing first task and a succeeding second one, the
second caller still gets its own result (`ok 7`), executed after the first
task's state effect — the failure neither blocks nor reorders it. -/
theorem c2_queue_order_witness :
    (1 < ([wTask0, wTask1] : List (QTask (List ℕ) ℕ)).length) ∧
    (((enqueueAll (X402JobQueue.init (List ℕ) ℕ) [wTask0, wTask1]).1.getD 1 wTask0) [] =
        ([wTask0, wTask1].getD 1 wTask0)
          (stateAfter ([wTask0, wTask1].take 1) ([] : List ℕ)) ∧
      (enqueueAll (X402JobQueue.init (List ℕ) ℕ) [wTask0, wTask1]).2.tail [] =
        stateAfter [wTask0, wTask1] ([] : List ℕ)) ∧
    ((enqueueAll (X402JobQueue.init (List ℕ) ℕ) [wTask0, wTask1]).1.getD 1 wTask0) [] =
      (Except.ok 7, [0, 1]) :=
  ⟨by decide, c2_queue_order [wTask0, wTask1] wTask0 [] 1 (by decide), rfl⟩

/-- Decidable equality for `Except`, used to evaluate results of fallible
operations on concrete inputs. -/
instance {ε α : Type} [DecidableEq ε] [DecidableEq α] : DecidableEq (Except ε α) :=
  fun a b =>
    match a, b with
    | .error e, .error f =>
      if h : e = f then isTrue (h ▸ rfl) else isFalse (fun hh => h (Except.error.inj hh))
    | .error _, .ok _ => isFalse Except.noConfusion
    | .ok _, .error _ => isFalse Except.noConfusion
    | .ok x, .ok y =>
      if h : x = y then isTrue (h ▸ rfl) else isFalse (fun hh => h (Except.ok.inj hh))

/-! ### Data model (`x402.types.ts`) -/

/-- `X402_CONFIG.network`. -/
def X402CONFIG_network : String := "stellar-testnet"

/-- `X402_CONFIG.scheme`. -/
def X402CONFIG_scheme : String := "exact"

/-- `X402_CONFIG.x402Version`. -/
def X402CONFIG_x402Version : ℕ := 1

/-- `X402_CONFIG.maxTimeoutSeconds`. -/
def X402CONFIG_maxTimeoutSeconds : ℕ := 300

/-- `X402_CONFIG.nativeAsset`. -/
def X402CONFIG_nativeAsset : String := "native"

/-- `PaymentMethodType = 'crypto' | 'fiat'`. -/
inductive PaymentMethodType where
  | crypto
  | fiat
deriving DecidableEq

/-- `ExactStellarPayload`: the ledger-specific sub-payload of a crypto
payment. -/
structure ExactStellarPayload where
  signedTxXdr : String
  sourceAccount : String
  amount : String
  destination : String
  asset : String
  validUntilLedger : ℕ
  nonce : String
deriving DecidableEq

/-- `CryptoPaymentPayload`. -/
structure CryptoPaymentPayload where
  x402Version : ℕ
  scheme : String
  network : String
  payload : ExactStellarPayload
deriving DecidableEq

/-- The `payload` member of `FiatPaymentPayload` (`glosa`, optional `time`
and `transactionId`). -/
structure FiatPayloadBody where
  glosa : String
  time : Option String
  transactionId : Option String
deriving DecidableEq

/-- `FiatPaymentPayload`.  `currency` is typed `string` but consumed with
`paymentPayload.currency ?? ...` fallbacks, so it is modelled as optional. -/
structure FiatPaymentPayload where
  x402Version : ℕ
  currency : Option String
  payload : FiatPayloadBody
deriving DecidableEq

/-- `PaymentPayload = CryptoPaymentPayload | FiatPaymentPayload`.  The
runtime discriminators are `isFiatPaymentPayload` (`payload.type === 'fiat'`)
and `isCryptoPaymentPayload` (`payload.scheme !== undefined`); on values of
the declared union types they coincide with the variant. -/
inductive PaymentPayload where
  | crypto (c : CryptoPaymentPayload)
  | fiat (f : FiatPaymentPayload)
deriving DecidableEq

/-- `isFiatPaymentPayload`. -/
def isFiatPaymentPayload : PaymentPayload → Bool
  | .fiat _ => true
  | .crypto _ => false

/-- `isCryptoPaymentPayload`. -/
def isCryptoPaymentPayload : PaymentPayload → Bool
  | .fiat _ => false
  | .crypto _ => true

/-- `PaymentRequirements`.  `maxAmountRequired` is a decimal integer string
in the source, written by `usdToAtomic` and read back with `BigInt(...)`;
it is modelled by the integer it denotes. -/
structure PaymentRequirements where
  scheme : String
  network : String
  maxAmountRequired : ℤ
  resource : String
  description : String
  mimeType : String
  payTo : String
  maxTimeoutSeconds : ℕ
  asset : String
  extraFeeSponsorship : Bool
  type : PaymentMethodType
deriving DecidableEq

/-- `VerifyResponse`. -/
structure VerifyResponse where
  isValid : Bool
  invalidReason : Option String := none
  payer : Option String := none
deriving DecidableEq

/-- `SettleResponse`. -/
structure SettleResponse where
  success : Bool
  errorReason : Option String := none
  transaction : String
  network : String
  payer : Option String := none
deriving DecidableEq

/-! ### Facilitator `verify` (`x402-facilitator.service.ts`)

`verify` calls into the Stellar SDK and Horizon; those collaborators are
modelled as an environment of oracles: `fromXDR` is
`TransactionBuilder.fromXDR` (`none` = throws), `keyValid` is whether
`Keypair.fromPublicKey` succeeds, `sigVerify` is
`sourceKeypair.verify(txHash, sig)`, `loadAccount` is
`server.loadAccount` (`none` = throws).  A decoded transaction carries
exactly the fields `verify` reads; numeric strings (`op.amount`,
`balance.balance`) are represented by the binary64 value `parseFloat`
produces for them. -/

/-- A Stellar asset as `verify` sees it: `isNative()` and `getCode()`. -/
structure StellarAsset where
  isNative : Bool
  code : String
deriving DecidableEq

/-- A decoded transaction operation (`op.type`, `op.destination`,
`op.amount` as its `parseFloat` value, `op.asset`). -/
structure StellarOp where
  optype : String
  destination : String
  amount : Dy
  asset : StellarAsset
deriving DecidableEq

/-- A decoded Stellar transaction: source account, signature blobs
(abstracted), operations. -/
structure StellarTx where
  source : String
  signatures : List ℕ
  operations : List StellarOp
deriving DecidableEq

/-- One entry of `account.balances` (`asset_type`, `asset_code`, `balance`
as its `parseFloat` value). -/
structure Balance where
  assetType : String
  assetCode : Option String
  balance : Dy
deriving DecidableEq

/-- The facilitator's external collaborators (Stellar SDK + Horizon). -/
structure FacilEnv where
  configured : Bool
  fromXDR : String → Option StellarTx
  keyValid : String → Bool
  sigVerify : String → StellarTx → ℕ → Bool
  loadAccount : String → Option (List Balance)

/-- `verify(paymentPayload, paymentRequirements)`, with the check sequence
of the source: payload variant, configuration, version, network, scheme,
XDR decode, source account match, signature presence and validity, payment
operation presence, destination, amount floor, asset match, payer balance.
Exception paths (XDR decode, malformed public key, Horizon errors) return
the catch-block responses. -/
def verify (env : FacilEnv) (paymentPayload : PaymentPayload)
    (paymentRequirements : PaymentRequirements) : VerifyResponse :=
  match paymentPayload with
  | .fiat _ =>
    { isValid := false,
      invalidReason := some "Invalid payment payload type for crypto payment" }
  | .crypto cp =>
    if env.configured = false then
      { isValid := false, invalidReason := some "Facilitator not configured" }
    else if cp.x402Version ≠ X402CONFIG_x402Version then
      { isValid := false,
        invalidReason := some ("Unsupported x402 version: " ++ toString cp.x402Version) }
    else if cp.network ≠ X402CONFIG_network then
      { isValid := false,
        invalidReason := some ("Wrong network. Expected " ++ X402CONFIG_network
          ++ ", got " ++ cp.network) }
    else if cp.scheme ≠ X402CONFIG_scheme then
      { isValid := false, invalidReason := some ("Unsupported scheme: " ++ cp.scheme) }
    else
      match env.fromXDR cp.payload.signedTxXdr with
      | none => { isValid := false, invalidReason := some "Verification failed" }
      | some transaction =>
        if transaction.source ≠ cp.payload.sourceAccount then
          { isValid := false, invalidReason := some "Transaction source account mismatch" }
        else if env.keyValid cp.payload.sourceAccount = false then
          { isValid := false, invalidReason := some "Verification failed" }
        else if transaction.signatures.isEmpty then
          { isValid := false, invalidReason := some "Transaction has no signatures" }
        else if (transaction.signatures.any
            (env.sigVerify cp.payload.sourceAccount transaction)) = false then
          { isValid := false, invalidReason := some "Invalid transaction signature" }
        else
          match transaction.operations.find? (fun o => o.optype == "payment") with
          | none =>
            { isValid := false,
              invalidReason := some "No payment operation found in transaction" }
          | some paymentOp =>
            if paymentOp.destination ≠ paymentRequirements.payTo then
              { isValid := false,
                invalidReason := some ("Payment destination mismatch. Expected "
                  ++ paymentRequirements.payTo) }
            else
              let amountInStroops := Dy.dyfloor (Dy.jsMul paymentOp.amount (Dy.ofInt 10000000))
              let requiredAmount := paymentRequirements.maxAmountRequired
              if amountInStroops < requiredAmount then
                { isValid := false,
                  invalidReason := some ("Insufficient payment amount. Required "
                    ++ toString requiredAmount ++ ", got " ++ toString amountInStroops) }
              else
                let assetCode := if paymentOp.asset.isNative then "native"
                  else paymentOp.asset.code
                if paymentRequirements.asset = "native" ∧ paymentOp.asset.isNative = false then
                  { isValid := false, invalidReason := some "Expected native XLM payment" }
                else if paymentRequirements.asset ≠ "native" ∧
                    paymentRequirements.asset ≠ assetCode then
                  { isValid := false,
                    invalidReason := some ("Asset mismatch. Expected "
                      ++ paymentRequirements.asset ++ ", got " ++ assetCode) }
                else
                  match env.loadAccount cp.payload.sourceAccount with
                  | none =>
                    { isValid := false,
                      invalidReason := some "Failed to verify payer balance" }
                  | some balances =>
                    let balanceDouble :=
                      if paymentOp.asset.isNative then
                        ((balances.find? (fun b => b.assetType == "native")).map
                          (·.balance)).getD (Dy.ofInt 0)
                      else
                        ((balances.find? (fun b => b.assetCode == some assetCode &&
                          b.assetType != "native")).map (·.balance)).getD (Dy.ofInt 0)
                    let balanceInStroops := Dy.dyfloor (Dy.jsMul balanceDouble (Dy.ofInt 10000000))
                    if balanceInStroops < requiredAmount then
                      { isValid := false,
                        invalidReason := some ("Insufficient balance. Has "
                          ++ toString balanceInStroops ++ ", needs "
                          ++ toString requiredAmount) }
                    else
                      { isValid := true, payer := some cp.payload.sourceAccount }

set_option maxHeartbeats 2000000 in
/-- C6.  Whenever the (first) payment operation's amount, converted to
atomic units exactly as the code does
(`BigInt(Math.floor(parseFloat(amount) * 10_000_000))`), is strictly less
than `requirements.maxAmountRequired`, `verify` returns `isValid = false`
— for any environment, any payload and any asset type.  Moreover, if every
check preceding the amount floor passes, the reason is exactly the
insufficient-amount rejection. -/
theorem c6_amount_floor (env : FacilEnv) (cp : CryptoPaymentPayload)
    (req : PaymentRequirements) (tx : StellarTx) (op : StellarOp)
    (hdec : env.fromXDR cp.payload.signedTxXdr = some tx)
    (hop : tx.operations.find? (fun o => o.optype == "payment") = some op)
    (hamt : Dy.dyfloor (Dy.jsMul op.amount (Dy.ofInt 10000000)) < req.maxAmountRequired) :
    (verify env (PaymentPayload.crypto cp) req).isValid = false ∧
    (env.configured = true →
      cp.x402Version = X402CONFIG_x402Version →
      cp.network = X402CONFIG_network →
      cp.scheme = X402CONFIG_scheme →
      tx.source = cp.payload.sourceAccount →
      env.keyValid cp.payload.sourceAccount = true →
      tx.signatures.any (env.sigVerify cp.payload.sourceAccount tx) = true →
      op.destination = req.payTo →
      verify env (PaymentPayload.crypto cp) req =
        { isValid := false,
          invalidReason := some ("Insufficient payment amount. Required "
            ++ toString req.maxAmountRequired ++ ", got "
            ++ toString (Dy.dyfloor (Dy.jsMul op.amount (Dy.ofInt 10000000)))) }) := by
  have hsig : ∀ _ : tx.signatures.any (env.sigVerify cp.payload.sourceAccount tx) = true,
      tx.signatures.isEmpty = false := by
    intro h
    cases hs : tx.signatures with
    | nil => rw [hs] at h; simp at h
    | cons a l => rfl
  constructor
  · simp only [verify, hdec, hop]
    split_ifs <;> first | rfl | omega
  · intro h1 h2 h3 h4 h5 h6 h7 h8
    simp only [verify, hdec, hop]
    rw [if_neg (by simp [h1]), if_neg (by simp [h2]), if_neg (by simp [h3]),
      if_neg (by simp [h4]), if_neg (by simp [h5]), if_neg (by simp [h6]),
      if_neg (by simp [hsig h7]), if_neg (by simp [h7]), if_neg (by simp [h8])]
    split_ifs <;> first | rfl | omega

/-- Concrete payment operation for the C6 witness: pays 5 XLM. -/
def wOp : StellarOp :=
  { optype := "payment", destination := "GPAYEE", amount := Dy.ofInt 5,
    asset := ⟨true, ""⟩ }

/-- Concrete decoded transaction for the C6 witness. -/
def wTx : StellarTx := { source := "GPAYER", signatures := [0], operations := [wOp] }

/-- Concrete facilitator environment for the C6 witness: everything
succeeds. -/
def wEnv : FacilEnv :=
  { configured := true
    fromXDR := fun _ => some wTx
    keyValid := fun _ => true
    sigVerify := fun _ _ _ => true
    loadAccount := fun _ => some [] }

/-- Concrete crypto payload for the C6 witness. -/
def wPayload : CryptoPaymentPayload :=
  { x402Version := 1, scheme := "exact", network := "stellar-testnet",
    payload := { signedTxXdr := "XDR", sourceAccount := "GPAYER", amount := "5",
                 destination := "GPAYEE", asset := "native",
                 validUntilLedger := 0, nonce := "n" } }

/-- Concrete requirements for the C6 witness: 10 USD = `100000000` stroops
required, so a 5-XLM payment (= `50000000` stroops) is short. -/
def wReq : PaymentRequirements :=
  { scheme := "exact", network := "stellar-testnet", maxAmountRequired := 100000000,
    resource := "/api/pay", description := "d", mimeType := "application/json",
    payTo := "GPAYEE", maxTimeoutSeconds := 300, asset := "native",
    extraFeeSponsorship := true, type := .crypto }

/-- C6 witness: at the concrete underpaying payload, `verify` rejects with
the insufficient-amount reason. -/
theorem c6_amount_floor_witness :
    (wEnv.fromXDR wPayload.payload.signedTxXdr = some wTx ∧
      wTx.operations.find? (fun o => o.optype == "payment") = some wOp ∧
      Dy.dyfloor (Dy.jsMul wOp.amount (Dy.ofInt 10000000)) < wReq.maxAmountRequired) ∧
    (verify wEnv (PaymentPayload.crypto wPayload) wReq).isValid = false ∧
    verify wEnv (PaymentPayload.crypto wPayload) wReq =
      { isValid := false,
        invalidReason :=
          some "Insufficient payment amount. Required 100000000, got 50000000" } :=
  ⟨⟨rfl, by decide, by decide⟩,
    (c6_amount_floor wEnv wPayload wReq wTx wOp rfl (by decide) (by decide)).1,
    by decide⟩

/-! ### Payment job registry (`x402-payment.service.ts`)

The registry's mutable state is two JavaScript `Map`s (`jobs`,
`jobsByOrderId`), modelled as insertion-ordered association lists with
unique keys, plus the pending verify-and-settle tasks handed to the
submission queue.  `randomUUID` is modelled by a counter (`nextId`): ids
are `"x402_" ++ n`, fresh by construction.  Times are milliseconds since
the epoch, as integers.  Webhook calls are fire-and-forget and touch no
registry state, so they are omitted.  The facilitator's `verify`/`settle`
are awaited network calls whose results reach the registry as values;
inside the registry model they are oracle inputs (the pure protocol logic
of `verify` is modelled separately above). -/

/-- `X402PaymentStatus`. -/
inductive X402PaymentStatus where
  | pending
  | payment_required
  | payment_received
  | verifying
  | verified
  | settling
  | settled
  | completed
  | failed
  | expired
deriving DecidableEq

/-- The status strings, as interpolated into error messages. -/
def statusStr : X402PaymentStatus → String
  | .pending => "pending"
  | .payment_required => "payment_required"
  | .payment_received => "payment_received"
  | .verifying => "verifying"
  | .verified => "verified"
  | .settling => "settling"
  | .settled => "settled"
  | .completed => "completed"
  | .failed => "failed"
  | .expired => "expired"

/-- `X402PaymentJob`. -/
structure X402PaymentJob where
  jobId : String
  orderId : String
  amountUsd : Dy
  amountAtomic : String
  resource : String
  description : String
  status : X402PaymentStatus
  paymentRequirements : Option PaymentRequirements := none
  paymentPayload : Option PaymentPayload := none
  verifyResponse : Option VerifyResponse := none
  settleResponse : Option SettleResponse := none
  createdAt : ℤ
  updatedAt : ℤ
  expiresAt : ℤ
  errorMessage : Option String := none
  requiresManualConfirmation : Bool
  manuallyConfirmed : Option Bool := none
  confirmedAt : Option ℤ := none
  confirmedBy : Option String := none
  paymentMethod : Option PaymentMethodType := none
  fiatAmount : Option Dy := none
  fiatQrIpfsLink : Option String := none
deriving DecidableEq

/-- `SettlementResponse` (the `X-PAYMENT-RESPONSE` header object).
`transaction` and `errorReason` are `string | null` (required, nullable);
`network`, `payer` and `currency` are optional. -/
structure SettlementResponse where
  success : Bool
  type : PaymentMethodType
  transaction : Option String
  network : Option String := none
  payer : Option String := none
  currency : Option String := none
  errorReason : Option String
deriving DecidableEq

/-- `Map.get`. -/
def alookup {β : Type} : List (String × β) → String → Option β
  | [], _ => none
  | (k, v) :: rest, key => if k = key then some v else alookup rest key

/-- `Map.set`: replace in place, or append a new entry. -/
def aset {β : Type} : List (String × β) → String → β → List (String × β)
  | [], key, v => [(key, v)]
  | (k, w) :: rest, key, v =>
    if k = key then (k, v) :: rest else (k, w) :: aset rest key v

/-- `Map.delete` (keys are unique, so filtering is deletion). -/
def aerase {β : Type} (m : List (String × β)) (key : String) : List (String × β) :=
  m.filter (fun kv => kv.1 != key)

/-- Registry configuration: the payment timeout and the two
`ConfigService` fallbacks read by `createPaymentJob`. -/
structure RegistryConfig where
  paymentTimeoutMs : ℤ
  payToDefault : Option String
  defaultResource : Option String
deriving DecidableEq

/-- The registry's state: job table, order-id index, pending
verify-and-settle tasks, and the id supply. -/
structure PaymentServiceState where
  jobs : List (String × X402PaymentJob)
  jobsByOrderId : List (String × String)
  queue : List (String × PaymentPayload)
  nextId : ℕ
deriving DecidableEq

/-- The state at service start. -/
def PaymentServiceState.init : PaymentServiceState := ⟨[], [], [], 0⟩

/-- The result record of `processPayment` / `verifyAndSettle`. -/
structure ProcessResult where
  success : Bool
  status : X402PaymentStatus
  txHash : Option String := none
  blockExplorerUrl : Option String := none
  error : Option String := none
  requiresManualConfirmation : Option Bool := none
  payer : Option String := none
deriving DecidableEq

/-- A `processPayment` call either returns at once or awaits its queued
verify-and-settle task (whose result is produced when the task runs). -/
inductive ProcessOutcome where
  | immediate (r : ProcessResult)
  | enqueued
deriving DecidableEq

/-- The result record of `confirmPayment`. -/
structure ConfirmResult where
  success : Bool
  status : X402PaymentStatus
  error : Option String := none
deriving DecidableEq

/-- `getBlockExplorerUrl`. -/
def getBlockExplorerUrl (txHash : String) : String :=
  "https://stellar.expert/explorer/testnet" ++ "/tx/" ++ txHash

/-- `updateJobStatus(jobId, status, errorMessage?)`: unconditionally
overwrites the status, refreshes `updatedAt`, and sets `errorMessage` when
one is given.  No-op when the job does not exist. -/
def updateJobStatus (st : PaymentServiceState) (jobId : String)
    (status : X402PaymentStatus) (errorMessage : Option String) (now : ℤ) :
    PaymentServiceState :=
  match alookup st.jobs jobId with
  | none => st
  | some job =>
    let job' := { job with
      status := status
      updatedAt := now
      errorMessage := match errorMessage with
        | some msg => some msg
        | none => job.errorMessage }
    { st with jobs := aset st.jobs jobId job' }

/-- The existing-job check at the top of `createPaymentJob`: the job the
order-id index points at, provided it exists and is live (not
`failed`/`expired`/`completed`). -/
def liveJobFor (st : PaymentServiceState) (orderId : String) :
    Option (String × X402PaymentJob) :=
  match alookup st.jobsByOrderId orderId with
  | none => none
  | some existingJobId =>
    match alookup st.jobs existingJobId with
    | none => none
    | some existingJob =>
      if existingJob.status ≠ .failed ∧ existingJob.status ≠ .expired ∧
          existingJob.status ≠ .completed then
        some (existingJobId, existingJob)
      else none

/-- `createPaymentJob(orderId, amountUsd, description, resource?,
requiresManualConfirmation, payTo?)`.  Returns the existing job unchanged
when a live one exists for the order id; otherwise builds requirements and
a fresh job, indexes both, and returns them.  Throws (modelled as
`.error`, state unchanged) when no payee address is resolvable. -/
def createPaymentJob (cfg : RegistryConfig) (st : PaymentServiceState)
    (orderId : String) (amountUsd : Dy) (description : String)
    (resource : Option String) (requiresManualConfirmation : Bool)
    (payTo : Option String) (now : ℤ) :
    PaymentServiceState × Except String (String × Option PaymentRequirements) :=
  match liveJobFor st orderId with
  | some (existingJobId, existingJob) =>
    (st, .ok (existingJobId, existingJob.paymentRequirements))
  | none =>
    match (match payTo with | some p => some p | none => cfg.payToDefault) with
    | none =>
      (st, .error "payTo address must be provided or X402_PAY_TO_ADDRESS must be configured")
    | some payToAddress =>
      let jobId := "x402_" ++ toString st.nextId
      let amountAtomic := usdToAtomic amountUsd
      let expiresAt := now + cfg.paymentTimeoutMs
      let resourceUrl :=
        match resource with
        | some r => r
        | none => match cfg.defaultResource with
          | some r => r
          | none => "/api/pay"
      let paymentRequirements : PaymentRequirements :=
        { scheme := X402CONFIG_scheme
          network := X402CONFIG_network
          maxAmountRequired := usdToAtomicInt amountUsd
          resource := resourceUrl
          description := description
          mimeType := "application/json"
          payTo := payToAddress
          maxTimeoutSeconds := (cfg.paymentTimeoutMs / 1000).toNat
          asset := X402CONFIG_nativeAsset
          extraFeeSponsorship := true
          type := .crypto }
      let job : X402PaymentJob :=
        { jobId := jobId
          orderId := orderId
          amountUsd := amountUsd
          amountAtomic := amountAtomic
          resource := resourceUrl
          description := description
          status := .payment_required
          paymentRequirements := some paymentRequirements
          createdAt := now
          updatedAt := now
          expiresAt := expiresAt
          requiresManualConfirmation := requiresManualConfirmation }
      ({ st with
          jobs := aset st.jobs jobId job
          jobsByOrderId := aset st.jobsByOrderId orderId jobId
          nextId := st.nextId + 1 },
        .ok (jobId, some paymentRequirements))

/-- `processPayment(jobId, xPaymentHeader)` up to the `enqueue` call; the
queued task's own execution is `verifyAndSettle`.  `decoded` is the
outcome of `decodePaymentHeader` (`.error` = it threw). -/
def processPayment (st : PaymentServiceState) (jobId : String)
    (decoded : Except String PaymentPayload) (now : ℤ) :
    PaymentServiceState × ProcessOutcome :=
  match alookup st.jobs jobId with
  | none =>
    (st, .immediate
      { success := false, status := .failed,
        error := some "Payment job not found" })
  | some job =>
    if job.expiresAt < now then
      (updateJobStatus st jobId .expired (some "Payment window expired") now,
        .immediate
          { success := false, status := .expired,
            error := some "Payment window expired" })
    else if job.status = .completed ∨ job.status = .settled ∨ job.status = .verified then
      (st, .immediate
        { success := true
          status := job.status
          txHash := job.settleResponse.map (·.transaction)
          blockExplorerUrl :=
            (job.settleResponse.map (·.transaction)).map getBlockExplorerUrl
          requiresManualConfirmation := some job.requiresManualConfirmation
          payer := job.settleResponse.bind (·.payer) })
    else if job.paymentMethod.isSome ∧ job.paymentMethod ≠ some .crypto then
      (st, .immediate
        { success := false, status := .failed,
          error := some "Payment method already locked to fiat for this order" })
    else
      match decoded with
      | .error msg =>
        (updateJobStatus st jobId .failed (some ("Invalid payment payload: " ++ msg)) now,
          .immediate
            { success := false, status := .failed,
              error := some ("Invalid payment payload: " ++ msg) })
      | .ok paymentPayload =>
        if isFiatPaymentPayload paymentPayload then
          (updateJobStatus st jobId .failed
              (some "Fiat payload not supported on crypto processor") now,
            .immediate
              { success := false, status := .failed,
                error := some "Fiat payload not supported on crypto processor" })
        else
          let job' := { job with
            paymentPayload := some paymentPayload
            paymentMethod := some PaymentMethodType.crypto }
          let st1 := { st with jobs := aset st.jobs jobId job' }
          let st2 := updateJobStatus st1 jobId .payment_received none now
          ({ st2 with queue := st2.queue ++ [(jobId, paymentPayload)] }, .enqueued)

/-- `verifyAndSettle(jobId, paymentPayload)`: the queued task.  `vres` and
`sres` are the awaited facilitator results. -/
def verifyAndSettle (st : PaymentServiceState) (jobId : String)
    (paymentPayload : PaymentPayload) (vres : VerifyResponse)
    (sres : SettleResponse) (now : ℤ) : PaymentServiceState × ProcessResult :=
  match alookup st.jobs jobId with
  | none =>
    (st,
      { success := false, status := .failed,
        error := some "Payment job not found" })
  | some job =>
    if job.paymentRequirements.isNone then
      (st,
        { success := false, status := .failed,
          error := some "Payment job not found" })
    else
      let stv := updateJobStatus st jobId .verifying none now
      let stv2 := match alookup stv.jobs jobId with
        | none => stv
        | some j =>
          let j' := { j with verifyResponse := some vres }
          { stv with jobs := aset stv.jobs jobId j' }
      if vres.isValid = false then
        let reason := vres.invalidReason.getD "Verification failed"
        (updateJobStatus stv2 jobId .failed (some reason) now,
          { success := false, status := .failed, error := some reason })
      else
        let sta := updateJobStatus stv2 jobId .verified none now
        let stb := updateJobStatus sta jobId .settling none now
        let stb2 := match alookup stb.jobs jobId with
          | none => stb
          | some j =>
            let j' := { j with settleResponse := some sres }
            { stb with jobs := aset stb.jobs jobId j' }
        if sres.success = false then
          let reason := sres.errorReason.getD "Settlement failed"
          (updateJobStatus stb2 jobId .failed (some reason) now,
            { success := false, status := .failed, error := some reason })
        else
          let stc := updateJobStatus stb2 jobId .settled none now
          if job.requiresManualConfirmation then
            (stc, { success := true, status := .settled,
                    txHash := some sres.transaction,
                    blockExplorerUrl := some (getBlockExplorerUrl sres.transaction),
                    requiresManualConfirmation := some true, payer := sres.payer })
          else
            (updateJobStatus stc jobId .completed none now,
              { success := true, status := .completed,
                txHash := some sres.transaction,
                blockExplorerUrl := some (getBlockExplorerUrl sres.transaction),
                requiresManualConfirmation := some false, payer := sres.payer })

/-- `confirmPayment(jobId, confirmedBy?)`. -/
def confirmPayment (st : PaymentServiceState) (jobId : String)
    (confirmedBy : Option String) (now : ℤ) :
    PaymentServiceState × ConfirmResult :=
  match alookup st.jobs jobId with
  | none =>
    (st,
      { success := false, status := .failed,
        error := some "Payment job not found" })
  | some job =>
    if job.status ≠ .settled then
      (st,
        { success := false, status := job.status,
          error := some ("Cannot confirm payment in status: "
            ++ statusStr job.status ++ ". Expected: settled") })
    else
      let job' := { job with
        manuallyConfirmed := some true
        confirmedAt := some now
        confirmedBy := confirmedBy }
      let st1 := { st with jobs := aset st.jobs jobId job' }
      let st2 := updateJobStatus st1 jobId .completed none now
      (st2, { success := true, status := .completed })

/-- The `setTimeout` callback armed by `scheduleExpirationCheck`: re-checks
the status and only expires a job still in `payment_required`. -/
def expirationTimerFire (st : PaymentServiceState) (jobId : String) (now : ℤ) :
    PaymentServiceState :=
  match alookup st.jobs jobId with
  | none => st
  | some currentJob =>
    if currentJob.status = .payment_required then
      updateJobStatus st jobId .expired (some "Payment window expired") now
    else st

/-- The sweep condition of `cleanupExpiredJobs`: expired more than one
hour ago and in a terminal failure state. -/
def expiredForCleanup (job : X402PaymentJob) (now : ℤ) : Bool :=
  decide (job.expiresAt < now - 3600000) &&
    (job.status == .expired || job.status == .failed)

/-- The order ids of the jobs a sweep at `now` removes. -/
def sweptOrderIds (st : PaymentServiceState) (now : ℤ) : List String :=
  (st.jobs.filter (fun kv => expiredForCleanup kv.2 now)).map (fun kv => kv.2.orderId)

/-- `cleanupExpiredJobs()`: deletes every matching job and, for each, its
order id's index entry (unconditionally — whatever that entry points to).
Returns the count. -/
def cleanupExpiredJobs (st : PaymentServiceState) (now : ℤ) :
    PaymentServiceState × ℕ :=
  ({ st with
      jobs := st.jobs.filter (fun kv => !(expiredForCleanup kv.2 now))
      jobsByOrderId := (sweptOrderIds st now).foldl aerase st.jobsByOrderId },
    (sweptOrderIds st now).length)

/-- `getJobStatus(jobId)`. -/
def getJobStatus (st : PaymentServiceState) (jobId : String) :
    Option X402PaymentJob :=
  alookup st.jobs jobId

/-- `getJobByOrderId(orderId)`. -/
def getJobByOrderId (st : PaymentServiceState) (orderId : String) :
    Option X402PaymentJob :=
  match alookup st.jobsByOrderId orderId with
  | some jobId => alookup st.jobs jobId
  | none => none

/-- The controller's method-lock test on the fiat path:
`job?.paymentMethod && job.paymentMethod !== 'fiat'`. -/
def fiatLockConflict (jobOpt : Option X402PaymentJob) : Bool :=
  match jobOpt with
  | some j => j.paymentMethod.isSome && j.paymentMethod != some PaymentMethodType.fiat
  | none => false

/-- `handleFiatPayment` (controller), state-relevant part plus the
settlement object it answers with.  `verified` is the awaited result of
`fiatAutomation.verifyPaymentInline`. -/
def handleFiatPayment (st : PaymentServiceState) (jobId : String)
    (fp : FiatPaymentPayload) (dtoCurrency : Option String) (verified : Bool)
    (now : ℤ) : PaymentServiceState × SettlementResponse :=
  let jobOpt := getJobStatus st jobId
  let currency := some ((fp.currency.orElse (fun _ => dtoCurrency)).getD "BOB")
  if fiatLockConflict jobOpt then
    (st,
      { success := false, type := .fiat, transaction := none,
        currency := currency,
        errorReason := some "Payment method already locked to crypto" })
  else
    let transaction := (fp.payload.transactionId).orElse (fun _ => fp.payload.time)
    if verified = false then
      let st1 := match jobOpt with
        | some j =>
          let j' := { j with
            paymentMethod := some PaymentMethodType.fiat
            errorMessage := some "Fiat payment could not be verified" }
          { st with jobs := aset st.jobs jobId j' }
        | none => st
      (st1,
        { success := false, type := .fiat, transaction := transaction,
          currency := currency,
          errorReason := some "Fiat payment could not be verified" })
    else
      let st1 := match jobOpt with
        | some j =>
          let j' := { j with
            paymentMethod := some PaymentMethodType.fiat
            status := .completed
            updatedAt := now }
          { st with jobs := aset st.jobs jobId j' }
        | none => st
      (st1,
        { success := true, type := .fiat, transaction := transaction,
          currency := currency, errorReason := none })

/-- One externally observable event of the registry: an operation call, a
queued task getting its turn (in queue order), a timer firing, or a
sweep.  Oracle data (decoded payloads, facilitator results, clock values)
rides on the event. -/
inductive RegistryEvent where
  | create (orderId : String) (amountUsd : Dy) (description : String)
      (resource : Option String) (requiresManualConfirmation : Bool)
      (payTo : Option String) (now : ℤ)
  | submit (jobId : String) (decoded : Except String PaymentPayload) (now : ℤ)
  | runTask (vres : VerifyResponse) (sres : SettleResponse) (now : ℤ)
  | confirm (jobId : String) (confirmedBy : Option String) (now : ℤ)
  | timerFire (jobId : String) (now : ℤ)
  | cleanup (now : ℤ)
  | fiat (jobId : String) (fp : FiatPaymentPayload) (dtoCurrency : Option String)
      (verified : Bool) (now : ℤ)

/-- Apply one event to the registry state. -/
def stepEvent (cfg : RegistryConfig) (st : PaymentServiceState) :
    RegistryEvent → PaymentServiceState
  | .create o a d r m p now => (createPaymentJob cfg st o a d r m p now).1
  | .submit j dec now => (processPayment st j dec now).1
  | .runTask vres sres now =>
    match st.queue with
    | [] => st
    | (jobId, payload) :: rest =>
      (verifyAndSettle { st with queue := rest } jobId payload vres sres now).1
  | .confirm j cb now => (confirmPayment st j cb now).1
  | .timerFire j now => expirationTimerFire st j now
  | .cleanup now => (cleanupExpiredJobs st now).1
  | .fiat j fp cur v now => (handleFiatPayment st j fp cur v now).1

/-- Run an event history from service start. -/
def runEvents (cfg : RegistryConfig) (evs : List RegistryEvent) :
    PaymentServiceState :=
  evs.foldl (stepEvent cfg) PaymentServiceState.init

/-! ### Association list lemmas -/

theorem alookup_aset_self {β : Type} (m : List (String × β)) (k : String) (v : β) :
    alookup (aset m k v) k = some v := by
  induction m with
  | nil => simp [aset, alookup]
  | cons kv rest ih =>
    by_cases h : kv.1 = k
    · simp [aset, alookup, h]
    · simp [aset, alookup, h, ih]

theorem alookup_aset_ne {β : Type} (m : List (String × β)) (k k' : String) (v : β)
    (h : k' ≠ k) : alookup (aset m k v) k' = alookup m k' := by
  induction m with
  | nil => simp [aset, alookup, Ne.symm h]
  | cons kv rest ih =>
    by_cases hk : kv.1 = k
    · simp only [aset, hk, if_pos rfl, alookup]
      rw [if_neg (fun hh : k = k' => h hh.symm), if_neg (hk ▸ fun hh : k = k' => h hh.symm)]
    · simp only [aset, if_neg hk, alookup, ih]

theorem aset_aset {β : Type} (m : List (String × β)) (k : String) (v w : β) :
    aset (aset m k v) k w = aset m k w := by
  induction m with
  | nil => simp [aset]
  | cons kv rest ih =>
    by_cases hk : kv.1 = k
    · simp [aset, hk]
    · simp [aset, hk, ih]

theorem mem_aset {β : Type} (m : List (String × β)) (k : String) (v : β) (kv : String × β)
    (h : kv ∈ aset m k v) : kv ∈ m ∨ kv = (k, v) := by
  induction m with
  | nil => simpa [aset] using h
  | cons hd rest ih =>
    by_cases hk : hd.1 = k
    · simp only [aset, if_pos hk, List.mem_cons] at h
      rcases h with h | h
      · right; rw [h, hk]
      · left; exact List.mem_cons_of_mem _ h
    · simp only [aset, if_neg hk, List.mem_cons] at h
      rcases h with h | h
      · left; rw [h]; exact List.mem_cons_self _ _
      · rcases ih h with h | h
        · left; exact List.mem_cons_of_mem _ h
        · right; exact h

theorem alookup_mem {β : Type} (m : List (String × β)) (k : String) (v : β)
    (h : alookup m k = some v) : (k, v) ∈ m := by
  induction m with
  | nil => simp [alookup] at h
  | cons kv rest ih =>
    by_cases hk : kv.1 = k
    · simp only [alookup, if_pos hk] at h
      cases h
      subst hk
      exact List.mem_cons_self _ _
    · simp only [alookup, if_neg hk] at h
      exact List.mem_cons_of_mem _ (ih h)

theorem alookup_aerase_self {β : Type} (m : List (String × β)) (k : String) :
    alookup (aerase m k) k = none := by
  induction m with
  | nil => rfl
  | cons kv rest ih =>
    rw [aerase, List.filter_cons]
    by_cases hk : kv.1 = k
    · have hb : (kv.1 != k) = false := by simp [hk]
      rw [hb, if_neg (by simp)]
      simpa [aerase] using ih
    · have hb : (kv.1 != k) = true := by simpa [bne_iff_ne] using hk
      rw [if_pos hb, alookup, if_neg hk]
      simpa [aerase] using ih

theorem alookup_aerase_ne {β : Type} (m : List (String × β)) (k k' : String)
    (h : k' ≠ k) : alookup (aerase m k) k' = alookup m k' := by
  induction m with
  | nil => rfl
  | cons kv rest ih =>
    rw [aerase, List.filter_cons]
    by_cases hk : kv.1 = k
    · have hb : (kv.1 != k) = false := by simp [hk]
      rw [hb, if_neg (by simp)]
      rw [alookup, if_neg (hk ▸ fun hh : kv.1 = k' => (hh ▸ h) hk)]
      simpa [aerase] using ih
    · have hb : (kv.1 != k) = true := by simpa [bne_iff_ne] using hk
      rw [if_pos hb, alookup, alookup]
      by_cases hkk : kv.1 = k'
      · rw [if_pos hkk, if_pos hkk]
      · rw [if_neg hkk, if_neg hkk]
        simpa [aerase] using ih

theorem alookup_aerase_none {β : Type} (m : List (String × β)) (k k' : String)
    (h : alookup m k' = none) : alookup (aerase m k) k' = none := by
  by_cases hk : k' = k
  · rw [hk]; exact alookup_aerase_self m k
  · rw [alookup_aerase_ne m k k' hk]; exact h

theorem alookup_foldl_aerase_notin {β : Type} (l : List String)
    (m : List (String × β)) (o : String) (h : o ∉ l) :
    alookup (l.foldl aerase m) o = alookup m o := by
  induction l generalizing m with
  | nil => rfl
  | cons hd tl ih =>
    simp only [List.foldl]
    rw [ih _ (fun hh => h (List.mem_cons_of_mem _ hh))]
    exact alookup_aerase_ne m hd o (fun hh => h (hh ▸ List.mem_cons_self _ _))

theorem alookup_foldl_aerase_none {β : Type} (l : List String)
    (m : List (String × β)) (o : String) (h : alookup m o = none) :
    alookup (l.foldl aerase m) o = none := by
  induction l generalizing m with
  | nil => exact h
  | cons hd tl ih =>
    simp only [List.foldl]
    exact ih _ (alookup_aerase_none m hd o h)

theorem alookup_foldl_aerase_mem {β : Type} (l : List String)
    (m : List (String × β)) (o : String) (h : o ∈ l) :
    alookup (l.foldl aerase m) o = none := by
  induction l generalizing m with
  | nil => simp at h
  | cons hd tl ih =>
    simp only [List.foldl]
    by_cases hh : o ∈ tl
    · exact ih _ hh
    · have : o = hd := by
        rcases List.mem_cons.mp h with h1 | h1
        · exact h1
        · exact absurd h1 hh
      rw [this]
      exact alookup_foldl_aerase_none tl _ hd (alookup_aerase_self m hd)

/-! ### C3: settlement requires verification -/

/-- The C3 invariant, over all entries of a job table: a settled job
carries a recorded successful verification. -/
def settledInvJobs (jobs : List (String × X402PaymentJob)) : Prop :=
  ∀ kv ∈ jobs, kv.2.status = X402PaymentStatus.settled →
    ∃ v, kv.2.verifyResponse = some v ∧ v.isValid = true

theorem settledInvJobs_nil : settledInvJobs [] := by
  intro kv hkv
  simp at hkv

theorem settledInvJobs_aset {jobs : List (String × X402PaymentJob)}
    {jobId : String} {job' : X402PaymentJob} (h : settledInvJobs jobs)
    (hj : job'.status = X402PaymentStatus.settled →
      ∃ v, job'.verifyResponse = some v ∧ v.isValid = true) :
    settledInvJobs (aset jobs jobId job') := by
  intro kv hkv hs
  rcases mem_aset jobs jobId job' kv hkv with hmem | heq
  · exact h kv hmem hs
  · rw [heq] at hs ⊢
    exact hj hs

theorem settledInvJobs_filter {jobs : List (String × X402PaymentJob)}
    (p : String × X402PaymentJob → Bool) (h : settledInvJobs jobs) :
    settledInvJobs (jobs.filter p) :=
  fun kv hkv hs => h kv (List.mem_of_mem_filter hkv) hs

theorem settledInvJobs_lookup {jobs : List (String × X402PaymentJob)}
    (h : settledInvJobs jobs) (jobId : String) (job : X402PaymentJob)
    (hl : alookup jobs jobId = some job)
    (hs : job.status = X402PaymentStatus.settled) :
    ∃ v, job.verifyResponse = some v ∧ v.isValid = true :=
  h (jobId, job) (alookup_mem jobs jobId job hl) hs

theorem updateJobStatus_settledInv {st : PaymentServiceState}
    (h : settledInvJobs st.jobs) (jobId : String) (status : X402PaymentStatus)
    (msg : Option String) (now : ℤ)
    (hstatus : status ≠ X402PaymentStatus.settled) :
    settledInvJobs (updateJobStatus st jobId status msg now).jobs := by
  unfold updateJobStatus
  cases hj : alookup st.jobs jobId with
  | none => exact h
  | some job =>
    exact settledInvJobs_aset h (fun hs => absurd hs hstatus)

theorem createPaymentJob_settledInv (cfg : RegistryConfig)
    {st : PaymentServiceState} (h : settledInvJobs st.jobs)
    (o : String) (a : Dy) (d : String) (r : Option String) (m : Bool)
    (p : Option String) (now : ℤ) :
    settledInvJobs (createPaymentJob cfg st o a d r m p now).1.jobs := by
  unfold createPaymentJob
  cases hl : liveJobFor st o with
  | some pair => simp only [hl]; exact h
  | none =>
    simp only [hl]
    cases hp : (match p with | some q => some q | none => cfg.payToDefault) with
    | none => exact h
    | some payToAddress =>
      simp only [hp]
      exact settledInvJobs_aset h (by intro hs; simp at hs)

theorem processPayment_settledInv {st : PaymentServiceState}
    (h : settledInvJobs st.jobs) (jobId : String)
    (decoded : Except String PaymentPayload) (now : ℤ) :
    settledInvJobs (processPayment st jobId decoded now).1.jobs := by
  unfold processPayment
  cases hj : alookup st.jobs jobId with
  | none => exact h
  | some job =>
    simp only []
    split_ifs with h1 h2 h3
    · exact updateJobStatus_settledInv h jobId _ _ now (by simp)
    · exact h
    · exact h
    · cases decoded with
      | error msg =>
        exact updateJobStatus_settledInv h jobId _ _ now (by simp)
      | ok paymentPayload =>
        by_cases hf : isFiatPaymentPayload paymentPayload
        · simp only [if_pos hf]
          exact updateJobStatus_settledInv h jobId _ _ now (by simp)
        · simp only [if_neg hf]
          refine @updateJobStatus_settledInv _ ?_ jobId _ _ now (by simp)
          refine settledInvJobs_aset h ?_
          intro hs
          exact settledInvJobs_lookup h jobId job hj hs

theorem verifyAndSettle_settledInv {st : PaymentServiceState}
    (h : settledInvJobs st.jobs) (jobId : String) (p : PaymentPayload)
    (vres : VerifyResponse) (sres : SettleResponse) (now : ℤ) :
    settledInvJobs (verifyAndSettle st jobId p vres sres now).1.jobs := by
  unfold verifyAndSettle updateJobStatus
  cases hj : alookup st.jobs jobId with
  | none => exact h
  | some job =>
    simp only [alookup_aset_self, aset_aset]
    by_cases hreq : job.paymentRequirements.isNone
    · simp only [if_pos hreq]
      exact h
    · simp only [if_neg hreq]
      by_cases hv : vres.isValid = false
      · simp only [if_pos hv]
        exact settledInvJobs_aset h (by intro hs; simp at hs)
      · simp only [if_neg hv]
        by_cases hs : sres.success = false
        · simp only [if_pos hs]
          exact settledInvJobs_aset h (by intro hss; simp at hss)
        · simp only [if_neg hs]
          by_cases hm : job.requiresManualConfirmation
          · simp only [if_pos hm]
            refine settledInvJobs_aset h ?_
            intro _
            refine ⟨vres, rfl, ?_⟩
            revert hv
            cases vres.isValid <;> simp
          · simp only [if_neg hm]
            exact settledInvJobs_aset h (by intro hss; simp at hss)

theorem confirmPayment_settledInv {st : PaymentServiceState}
    (h : settledInvJobs st.jobs) (jobId : String) (cb : Option String) (now : ℤ) :
    settledInvJobs (confirmPayment st jobId cb now).1.jobs := by
  unfold confirmPayment updateJobStatus
  cases hj : alookup st.jobs jobId with
  | none => exact h
  | some job =>
    simp only [alookup_aset_self, aset_aset]
    by_cases hs : job.status ≠ X402PaymentStatus.settled
    · simp only [if_pos hs]
      exact h
    · simp only [if_neg hs]
      exact settledInvJobs_aset h (by intro hss; simp at hss)

theorem expirationTimerFire_settledInv {st : PaymentServiceState}
    (h : settledInvJobs st.jobs) (jobId : String) (now : ℤ) :
    settledInvJobs (expirationTimerFire st jobId now).jobs := by
  unfold expirationTimerFire
  cases hj : alookup st.jobs jobId with
  | none => exact h
  | some job =>
    by_cases hs : job.status = X402PaymentStatus.payment_required
    · simp only [if_pos hs]
      exact updateJobStatus_settledInv h jobId _ _ now (by simp)
    · simp only [if_neg hs]
      exact h

theorem cleanupExpiredJobs_settledInv {st : PaymentServiceState}
    (h : settledInvJobs st.jobs) (now : ℤ) :
    settledInvJobs (cleanupExpiredJobs st now).1.jobs :=
  settledInvJobs_filter _ h

theorem handleFiatPayment_settledInv {st : PaymentServiceState}
    (h : settledInvJobs st.jobs) (jobId : String) (fp : FiatPaymentPayload)
    (cur : Option String) (v : Bool) (now : ℤ) :
    settledInvJobs (handleFiatPayment st jobId fp cur v now).1.jobs := by
  unfold handleFiatPayment getJobStatus
  by_cases hc : fiatLockConflict (alookup st.jobs jobId)
  · simp only [if_pos hc]
    exact h
  · simp only [if_neg hc]
    by_cases hv : v = false
    · simp only [if_pos hv]
      cases hj : alookup st.jobs jobId with
      | none => exact h
      | some job =>
        refine settledInvJobs_aset h ?_
        intro hs
        exact settledInvJobs_lookup h jobId job hj hs
    · simp only [if_neg hv]
      cases hj : alookup st.jobs jobId with
      | none => exact h
      | some job =>
        exact settledInvJobs_aset h (by intro hs; simp at hs)

theorem stepEvent_settledInv (cfg : RegistryConfig) {st : PaymentServiceState}
    (h : settledInvJobs st.jobs) (ev : RegistryEvent) :
    settledInvJobs (stepEvent cfg st ev).jobs := by
  cases ev with
  | create o a d r m p now => exact createPaymentJob_settledInv cfg h o a d r m p now
  | submit j dec now => exact processPayment_settledInv h j dec now
  | runTask vres sres now =>
    unfold stepEvent
    cases hq : st.queue with
    | nil => exact h
    | cons task rest =>
      exact @verifyAndSettle_settledInv { st with queue := rest } h task.1 task.2
        vres sres now
  | confirm j cb now => exact confirmPayment_settledInv h j cb now
  | timerFire j now => exact expirationTimerFire_settledInv h j now
  | cleanup now => exact cleanupExpiredJobs_settledInv h now
  | fiat j fp cur v now => exact handleFiatPayment_settledInv h j fp cur v now

/-- C3.  In every state reachable by any event history, a job with status
`settled` carries a recorded `VerifyResponse` with `isValid = true`.  The
only writer of `settled` is `verifyAndSettle`, which stores the verify
result (`job.verifyResponse = verifyResult`) and returns on
`!verifyResult.isValid` before the settlement attempt begins — so the
successful verification is recorded on the job before settlement, and no
path reaches `settled` without it. -/
theorem c3_settlement_requires_verification (cfg : RegistryConfig)
    (evs : List RegistryEvent) (jobId : String) (job : X402PaymentJob)
    (hl : alookup (runEvents cfg evs).jobs jobId = some job)
    (hs : job.status = X402PaymentStatus.settled) :
    ∃ v, job.verifyResponse = some v ∧ v.isValid = true := by
  have key : ∀ (l : List RegistryEvent) (st0 : PaymentServiceState),
      settledInvJobs st0.jobs → settledInvJobs (l.foldl (stepEvent cfg) st0).jobs := by
    intro l
    induction l with
    | nil => intro st0 h0; exact h0
    | cons ev l ih => intro st0 h0; exact ih _ (stepEvent_settledInv cfg h0 ev)
  exact settledInvJobs_lookup (key evs PaymentServiceState.init settledInvJobs_nil)
    jobId job hl hs

/-! ### Concrete registry fixtures for witnesses and counterexamples -/

/-- Registry configuration used by the concrete traces: the default
5-minute timeout and a configured default payee. -/
def wCfg : RegistryConfig := ⟨300000, some "GDEF", none⟩

/-- The crypto payment payload of the concrete traces. -/
def wCryptoPay : PaymentPayload := PaymentPayload.crypto wPayload

/-- A failed verification result. -/
def wVresBad : VerifyResponse := { isValid := false, invalidReason := some "bad sig" }

/-- A successful verification result. -/
def wVresOk : VerifyResponse := { isValid := true, payer := some "GPAYER" }

/-- A successful settlement result. -/
def wSresOk : SettleResponse :=
  { success := true, transaction := "tx1", network := "stellar-testnet",
    payer := some "GPAYER" }

/-- A fiat payload for the concrete traces. -/
def wFiatPay : FiatPaymentPayload :=
  { x402Version := 1, currency := some "BOB",
    payload := { glosa := "g", time := none, transactionId := some "T1" } }

/-- Placeholder job used only as an `Option.getD` default in witnesses. -/
def wDummyJob : X402PaymentJob :=
  { jobId := "", orderId := "", amountUsd := Dy.ofInt 0, amountAtomic := "0",
    resource := "", description := "", status := .pending, createdAt := 0,
    updatedAt := 0, expiresAt := 0, requiresManualConfirmation := true }

/-- Trace event: create a job for `ORDER-1` (manual confirmation on). -/
def we1 : RegistryEvent := .create "ORDER-1" (Dy.ofInt 10) "d" none true none 0

/-- Trace event: first payment submission (enqueues a task). -/
def we2 : RegistryEvent := .submit "x402_0" (.ok wCryptoPay) 1

/-- Trace event: a second, concurrent submission of the same payment
(enqueues a second task for the same job). -/
def we3 : RegistryEvent := .submit "x402_0" (.ok wCryptoPay) 2

/-- Trace event: the first queued task runs; verification fails. -/
def we4 : RegistryEvent := .runTask wVresBad wSresOk 3

/-- Trace event: the second queued task runs; verify and settle succeed. -/
def we5 : RegistryEvent := .runTask wVresOk wSresOk 4

/-- C3 witness: the three-event history create → submit → task-succeeds
reaches `settled`, and the theorem yields the recorded valid
verification. -/
theorem c3_witness :
    ∃ job v,
      alookup (runEvents wCfg [we1, we2, we5]).jobs "x402_0" = some job ∧
      job.status = X402PaymentStatus.settled ∧
      job.verifyResponse = some v ∧ v.isValid = true := by
  have h1 : alookup (runEvents wCfg [we1, we2, we5]).jobs "x402_0" =
      some ((alookup (runEvents wCfg [we1, we2, we5]).jobs "x402_0").getD wDummyJob) := by
    decide
  have h2 : ((alookup (runEvents wCfg [we1, we2, we5]).jobs "x402_0").getD wDummyJob).status =
      X402PaymentStatus.settled := by decide
  obtain ⟨v, hv1, hv2⟩ :=
    c3_settlement_requires_verification wCfg [we1, we2, we5] "x402_0" _ h1 h2
  exact ⟨_, v, h1, h2, hv1, hv2⟩

/-- C1, counterexample.  Two concurrent submissions for the same job
enqueue two verify-then-settle tasks.  The first task's verification fails
and the job becomes `failed` — a terminal failure.  When the second,
late task runs, its result is **applied, not discarded**: the job moves
`failed → … → settled` and its stored verify result is overwritten. -/
theorem c1_counterexample :
    (alookup (runEvents wCfg [we1, we2, we3, we4]).jobs "x402_0").map
      (fun j => j.status) = some X402PaymentStatus.failed ∧
    (alookup (runEvents wCfg [we1, we2, we3, we4, we5]).jobs "x402_0").map
      (fun j => j.status) = some X402PaymentStatus.settled ∧
    (alookup (runEvents wCfg [we1, we2, we3, we4, we5]).jobs "x402_0").map
      (fun j => j.verifyResponse) = some (some wVresOk) :=
  ⟨by decide, by decide, by decide⟩

/-- C1, amended.  Once a job is `failed` or `expired`, the expiration
timer's callback applies no further transition to it (it re-checks and
fires only from `payment_required`), and `processPayment`'s
already-processed guard covers `verified`/`settled`/`completed`.  But a
queued verify-then-settle task that runs after the job reached `failed` or
`expired` is **not** discarded: `updateJobStatus` applies transitions
unconditionally, so the late task overwrites the job's status (to the
status its own outcome dictates), its stored verify result, and its
`updatedAt`. -/
theorem c1_amended (cfg : RegistryConfig) (st : PaymentServiceState) :
    (∀ jobId now job, alookup st.jobs jobId = some job →
      (job.status = X402PaymentStatus.failed ∨ job.status = X402PaymentStatus.expired) →
      expirationTimerFire st jobId now = st) ∧
    (∀ jobId p rest vres sres now job,
      st.queue = (jobId, p) :: rest →
      alookup st.jobs jobId = some job →
      job.paymentRequirements.isNone = false →
      (job.status = X402PaymentStatus.failed ∨ job.status = X402PaymentStatus.expired) →
      ∃ job',
        alookup (stepEvent cfg st (.runTask vres sres now)).jobs jobId = some job' ∧
        job'.verifyResponse = some vres ∧
        job'.updatedAt = now ∧
        job'.status = (if vres.isValid = false then X402PaymentStatus.failed
          else if sres.success = false then X402PaymentStatus.failed
          else if job.requiresManualConfirmation then X402PaymentStatus.settled
          else X402PaymentStatus.completed)) := by
  constructor
  · intro jobId now job hj hterm
    unfold expirationTimerFire
    simp only [hj]
    rw [if_neg (by rcases hterm with h | h <;> simp [h])]
  · intro jobId p rest vres sres now job hq hj hreq hterm
    simp only [stepEvent, hq]
    unfold verifyAndSettle updateJobStatus
    simp only [hj, hreq, alookup_aset_self, aset_aset]
    rw [if_neg (by simp)]
    by_cases hv : vres.isValid = false
    · simp only [if_pos hv]
      exact ⟨_, alookup_aset_self _ _ _, rfl, rfl, rfl⟩
    · simp only [if_neg hv]
      by_cases hs : sres.success = false
      · simp only [if_pos hs]
        exact ⟨_, alookup_aset_self _ _ _, rfl, rfl, rfl⟩
      · simp only [if_neg hs]
        by_cases hm : job.requiresManualConfirmation
        · simp only [if_pos hm]
          exact ⟨_, alookup_aset_self _ _ _, rfl, rfl, rfl⟩
        · simp only [if_neg hm]
          exact ⟨_, alookup_aset_self _ _ _, rfl, rfl, rfl⟩

/-- C1, witness for `c1_amended` at the concrete history of
`c1_counterexample`: after the first task fails the job, the timer
callback leaves it untouched, while the still-queued second task
overwrites it to `settled`. -/
theorem c1_amended_witness :
    (alookup (runEvents wCfg [we1, we2, we3, we4]).jobs "x402_0" =
        some ((alookup (runEvents wCfg [we1, we2, we3, we4]).jobs "x402_0").getD wDummyJob) ∧
      ((alookup (runEvents wCfg [we1, we2, we3, we4]).jobs "x402_0").getD wDummyJob).status =
          X402PaymentStatus.failed ∧
      (runEvents wCfg [we1, we2, we3, we4]).queue = ("x402_0", wCryptoPay) :: []) ∧
    expirationTimerFire (runEvents wCfg [we1, we2, we3, we4]) "x402_0" 5 =
      runEvents wCfg [we1, we2, we3, we4] ∧
    (∃ job',
      alookup (stepEvent wCfg (runEvents wCfg [we1, we2, we3, we4])
          (.runTask wVresOk wSresOk 5)).jobs "x402_0" = some job' ∧
      job'.verifyResponse = some wVresOk ∧
      job'.updatedAt = 5 ∧
      job'.status = (if wVresOk.isValid = false then X402PaymentStatus.failed
        else if wSresOk.success = false then X402PaymentStatus.failed
        else if ((alookup (runEvents wCfg [we1, we2, we3, we4]).jobs "x402_0").getD
            wDummyJob).requiresManualConfirmation then X402PaymentStatus.settled
        else X402PaymentStatus.completed)) := by
  refine ⟨⟨by decide, by decide, by decide⟩, ?_, ?_⟩
  · exact (c1_amended wCfg (runEvents wCfg [we1, we2, we3, we4])).1 "x402_0" 5
      ((alookup (runEvents wCfg [we1, we2, we3, we4]).jobs "x402_0").getD wDummyJob)
      (by decide) (Or.inl (by decide))
  · exact (c1_amended wCfg (runEvents wCfg [we1, we2, we3, we4])).2 "x402_0" wCryptoPay []
      wVresOk wSresOk 5
      ((alookup (runEvents wCfg [we1, we2, we3, we4]).jobs "x402_0").getD wDummyJob)
      (by decide) (by decide) (by decide) (Or.inl (by decide))

/-- Trace event: create a job for `ORDER-2` (no manual confirmation). -/
def wa1 : RegistryEvent := .create "ORDER-2" (Dy.ofInt 10) "d" none false none 0

/-- Trace event: a fiat payment for the job verifies successfully, locking
the method to `fiat` and completing the job. -/
def wa2 : RegistryEvent := .fiat "x402_0" wFiatPay none true 1

/-- C4, counterexample.  A job whose method is locked to `fiat` (by a
successful fiat payment, which also completes the job) does **not** reject
a subsequent crypto payload with a conflict error: `processPayment`'s
already-processed guard runs before the method-lock check, so the call
returns `success = true` with no error at all.  (The payload is still not
recorded — the state is unchanged.) -/
theorem c4_counterexample :
    (alookup (runEvents wCfg [wa1, wa2]).jobs "x402_0").map
      (fun j => j.paymentMethod) = some (some PaymentMethodType.fiat) ∧
    (alookup (runEvents wCfg [wa1, wa2]).jobs "x402_0").map
      (fun j => j.status) = some X402PaymentStatus.completed ∧
    (processPayment (runEvents wCfg [wa1, wa2]) "x402_0" (Except.ok wCryptoPay) 2).2 =
      ProcessOutcome.immediate
        { success := true, status := X402PaymentStatus.completed, txHash := none,
          blockExplorerUrl := none, error := none,
          requiresManualConfirmation := some false, payer := none } ∧
    (processPayment (runEvents wCfg [wa1, wa2]) "x402_0" (Except.ok wCryptoPay) 2).1 =
      runEvents wCfg [wa1, wa2] :=
  ⟨by decide, by decide, by decide, by decide⟩

/-- C4, amended.  The method lock holds as follows, and in both directions
the conflicting payload is never recorded (the state is unchanged).
Crypto→fiat: a job locked to `crypto` rejects every fiat payload with the
conflict error, unconditionally.  Fiat→crypto: a job locked to `fiat`
rejects a crypto payload with the conflict error *provided* the payment
window has not passed and the job is not in `verified`/`settled`/
`completed` (those guards run first; an already-completed fiat job answers
a crypto payload with its cached success instead, see
`c4_counterexample`). -/
theorem c4_amended (st : PaymentServiceState) (jobId : String) :
    (∀ job fp cur v now, alookup st.jobs jobId = some job →
      job.paymentMethod = some PaymentMethodType.crypto →
      handleFiatPayment st jobId fp cur v now =
        (st,
          { success := false, type := .fiat, transaction := none,
            currency := some ((fp.currency.orElse (fun _ => cur)).getD "BOB"),
            errorReason := some "Payment method already locked to crypto" })) ∧
    (∀ job dec now, alookup st.jobs jobId = some job →
      job.paymentMethod = some PaymentMethodType.fiat →
      ¬ job.expiresAt < now →
      ¬ (job.status = X402PaymentStatus.completed ∨
         job.status = X402PaymentStatus.settled ∨
         job.status = X402PaymentStatus.verified) →
      processPayment st jobId dec now =
        (st, ProcessOutcome.immediate
          { success := false, status := X402PaymentStatus.failed,
            error := some "Payment method already locked to fiat for this order" })) := by
  constructor
  · intro job fp cur v now hj hm
    unfold handleFiatPayment getJobStatus
    rw [hj]
    rw [if_pos (by simp [fiatLockConflict, hm])]
  · intro job dec now hj hm hexp hproc
    unfold processPayment
    simp only [hj]
    rw [if_neg hexp, if_neg hproc, if_pos (by simp [hm])]

/-- C4, witness for `c4_amended`: a crypto-locked job (after a crypto
submission) rejects a fiat payload, and a fiat-locked live job (after a
failed fiat verification) rejects a crypto payload, both with the conflict
error and without touching the state. -/
theorem c4_amended_witness :
    ((alookup (runEvents wCfg [we1, we2]).jobs "x402_0").map (fun j => j.paymentMethod) =
        some (some PaymentMethodType.crypto) ∧
      handleFiatPayment (runEvents wCfg [we1, we2]) "x402_0" wFiatPay none true 3 =
        (runEvents wCfg [we1, we2],
          { success := false, type := .fiat, transaction := none,
            currency := some ((wFiatPay.currency.orElse (fun _ => (none : Option String))).getD "BOB"),
            errorReason := some "Payment method already locked to crypto" })) ∧
    ((alookup (runEvents wCfg [wa1, .fiat "x402_0" wFiatPay none false 1]).jobs "x402_0").map
        (fun j => j.paymentMethod) = some (some PaymentMethodType.fiat) ∧
      processPayment (runEvents wCfg [wa1, .fiat "x402_0" wFiatPay none false 1]) "x402_0"
          (Except.ok wCryptoPay) 2 =
        (runEvents wCfg [wa1, .fiat "x402_0" wFiatPay none false 1],
          ProcessOutcome.immediate
            { success := false, status := X402PaymentStatus.failed,
              error := some "Payment method already locked to fiat for this order" })) := by
  constructor
  · refine ⟨by decide, ?_⟩
    exact (c4_amended (runEvents wCfg [we1, we2]) "x402_0").1
      ((alookup (runEvents wCfg [we1, we2]).jobs "x402_0").getD wDummyJob)
      wFiatPay none true 3 (by decide) (by decide)
  · refine ⟨by decide, ?_⟩
    exact (c4_amended (runEvents wCfg [wa1, .fiat "x402_0" wFiatPay none false 1]) "x402_0").2
      ((alookup (runEvents wCfg [wa1, .fiat "x402_0" wFiatPay none false 1]).jobs
        "x402_0").getD wDummyJob)
      (Except.ok wCryptoPay) 2 (by decide) (by decide) (by decide) (by decide)

/-- Trace event: create a job for order `A` at time 0. -/
def wf1 : RegistryEvent := .create "A" (Dy.ofInt 10) "d" none true none 0

/-- Trace event: the first job's expiration timer fires (after its
5-minute window). -/
def wf2 : RegistryEvent := .timerFire "x402_0" 300001

/-- Trace event: a fresh job is created for the same order `A` while the
old expired one is still in the table. -/
def wf3 : RegistryEvent := .create "A" (Dy.ofInt 10) "d" none true none 3999000

/-- Trace event: the periodic sweep runs, more than an hour after the old
job expired. -/
def wf4 : RegistryEvent := .cleanup 4000001

/-- C10, counterexample.  Sweeping the stale expired job for order `A`
deletes the order-id index entry for `A` unconditionally — even though
that entry points at the newer live job `x402_1`.  Afterwards `x402_1` is
still in the job table (live, `payment_required`), but
`getJobByOrderId "A"` no longer finds it. -/
theorem c10_counterexample :
    (alookup (runEvents wCfg [wf1, wf2, wf3, wf4]).jobs "x402_1").map
      (fun j => j.status) = some X402PaymentStatus.payment_required ∧
    (alookup (runEvents wCfg [wf1, wf2, wf3, wf4]).jobs "x402_1").map
      (fun j => j.orderId) = some "A" ∧
    getJobByOrderId (runEvents wCfg [wf1, wf2, wf3, wf4]) "A" = none :=
  ⟨by decide, by decide, by decide⟩

/-- C10, amended.  After a sweep, a remaining job whose order id is **not**
among the swept jobs' order ids keeps its index entry exactly as it was;
but for every order id of a swept job the index entry is removed — even
when it points at a newer live job for the same order id (see
`c10_counterexample`), which then stays retrievable by job id only. -/
theorem c10_amended (st : PaymentServiceState) (now : ℤ) :
    (∀ jobId job, alookup (cleanupExpiredJobs st now).1.jobs jobId = some job →
      job.orderId ∉ sweptOrderIds st now →
      alookup (cleanupExpiredJobs st now).1.jobsByOrderId job.orderId =
        alookup st.jobsByOrderId job.orderId) ∧
    (∀ o, o ∈ sweptOrderIds st now →
      alookup (cleanupExpiredJobs st now).1.jobsByOrderId o = none) := by
  constructor
  · intro jobId job _ hnot
    exact alookup_foldl_aerase_notin (sweptOrderIds st now) st.jobsByOrderId job.orderId hnot
  · intro o ho
    exact alookup_foldl_aerase_mem (sweptOrderIds st now) st.jobsByOrderId o ho

/-- C10, witness for `c10_amended` on a concrete sweep: order `B`'s live
job keeps its index entry, while swept order `A` loses its entry. -/
theorem c10_amended_witness :
    (alookup (cleanupExpiredJobs (runEvents wCfg
          [wf1, wf2, wf3, .create "B" (Dy.ofInt 10) "d" none true none 3999500])
        4000001).1.jobs "x402_2" =
      some ((alookup (cleanupExpiredJobs (runEvents wCfg
          [wf1, wf2, wf3, .create "B" (Dy.ofInt 10) "d" none true none 3999500])
        4000001).1.jobs "x402_2").getD wDummyJob) ∧
      ((alookup (cleanupExpiredJobs (runEvents wCfg
          [wf1, wf2, wf3, .create "B" (Dy.ofInt 10) "d" none true none 3999500])
        4000001).1.jobs "x402_2").getD wDummyJob).orderId ∉
        sweptOrderIds (runEvents wCfg
          [wf1, wf2, wf3, .create "B" (Dy.ofInt 10) "d" none true none 3999500]) 4000001 ∧
      "A" ∈ sweptOrderIds (runEvents wCfg
          [wf1, wf2, wf3, .create "B" (Dy.ofInt 10) "d" none true none 3999500]) 4000001) ∧
    alookup (cleanupExpiredJobs (runEvents wCfg
          [wf1, wf2, wf3, .create "B" (Dy.ofInt 10) "d" none true none 3999500])
        4000001).1.jobsByOrderId
      ((alookup (cleanupExpiredJobs (runEvents wCfg
          [wf1, wf2, wf3, .create "B" (Dy.ofInt 10) "d" none true none 3999500])
        4000001).1.jobs "x402_2").getD wDummyJob).orderId =
      alookup (runEvents wCfg
          [wf1, wf2, wf3, .create "B" (Dy.ofInt 10) "d" none true none 3999500]).jobsByOrderId
        ((alookup (cleanupExpiredJobs (runEvents wCfg
            [wf1, wf2, wf3, .create "B" (Dy.ofInt 10) "d" none true none 3999500])
          4000001).1.jobs "x402_2").getD wDummyJob).orderId ∧
    alookup (cleanupExpiredJobs (runEvents wCfg
          [wf1, wf2, wf3, .create "B" (Dy.ofInt 10) "d" none true none 3999500])
        4000001).1.jobsByOrderId "A" = none := by
  refine ⟨⟨by decide, by decide, by decide⟩, ?_, ?_⟩
  · exact (c10_amended (runEvents wCfg
        [wf1, wf2, wf3, .create "B" (Dy.ofInt 10) "d" none true none 3999500]) 4000001).1
      "x402_2"
      ((alookup (cleanupExpiredJobs (runEvents wCfg
          [wf1, wf2, wf3, .create "B" (Dy.ofInt 10) "d" none true none 3999500])
        4000001).1.jobs "x402_2").getD wDummyJob)
      (by decide) (by decide)
  · exact (c10_amended (runEvents wCfg
        [wf1, wf2, wf3, .create "B" (Dy.ofInt 10) "d" none true none 3999500]) 4000001).2
      "A" (by decide)

/-- C5.  Creation is idempotent while the job is live: if a create-job call
succeeds (returning a job id and requirements), then a second call with the
same order id — whatever its other arguments — returns exactly the same
job id and the same requirements, changes no state (creates no job), and
leaves the existing job untouched. -/
theorem c5_idempotent_creation (cfg : RegistryConfig) (st : PaymentServiceState)
    (o : String) (a : Dy) (d : String) (r : Option String) (m : Bool)
    (p : Option String) (now : ℤ) (a' : Dy) (d' : String) (r' : Option String)
    (m' : Bool) (p' : Option String) (now' : ℤ) (st1 : PaymentServiceState)
    (jobId : String) (reqs : Option PaymentRequirements)
    (h : createPaymentJob cfg st o a d r m p now = (st1, Except.ok (jobId, reqs))) :
    createPaymentJob cfg st1 o a' d' r' m' p' now' = (st1, Except.ok (jobId, reqs)) := by
  unfold createPaymentJob at h ⊢
  cases hl : liveJobFor st o with
  | some pair =>
    obtain ⟨jid, job⟩ := pair
    rw [hl] at h
    injection h with h1 h2
    subst h1
    injection h2 with h3
    injection h3 with h4 h5
    subst h4
    subst h5
    rw [hl]
  | none =>
    rw [hl] at h
    cases hp : (match p with | some q => some q | none => cfg.payToDefault) with
    | none =>
      rw [hp] at h
      simp at h
    | some payToAddress =>
      rw [hp] at h
      injection h with h1 h2
      injection h2 with h3
      injection h3 with h4 h5
      subst h1
      subst h4
      subst h5
      unfold liveJobFor
      simp only [alookup_aset_self]
      rw [if_pos (by simp)]

/-- C5, witness: a concrete first call creates `x402_0` for order `W5`;
the repeated call (with different amount, description, resource, flags,
payee and time) returns the same id and requirements and leaves the state
as it was. -/
theorem c5_idempotent_creation_witness :
    (createPaymentJob wCfg PaymentServiceState.init "W5" (Dy.ofInt 10) "d" none true
        (some "G") 0 =
      ((createPaymentJob wCfg PaymentServiceState.init "W5" (Dy.ofInt 10) "d" none true
          (some "G") 0).1,
        Except.ok ("x402_0",
          some { scheme := "exact", network := "stellar-testnet",
                 maxAmountRequired := 100000000, resource := "/api/pay",
                 description := "d", mimeType := "application/json", payTo := "G",
                 maxTimeoutSeconds := 300, asset := "native",
                 extraFeeSponsorship := true, type := PaymentMethodType.crypto }))) ∧
    createPaymentJob wCfg
        (createPaymentJob wCfg PaymentServiceState.init "W5" (Dy.ofInt 10) "d" none true
          (some "G") 0).1 "W5" (Dy.ofInt 7) "other" (some "R") false (some "H") 100 =
      ((createPaymentJob wCfg PaymentServiceState.init "W5" (Dy.ofInt 10) "d" none true
          (some "G") 0).1,
        Except.ok ("x402_0",
          some { scheme := "exact", network := "stellar-testnet",
                 maxAmountRequired := 100000000, resource := "/api/pay",
                 description := "d", mimeType := "application/json", payTo := "G",
                 maxTimeoutSeconds := 300, asset := "native",
                 extraFeeSponsorship := true, type := PaymentMethodType.crypto })) := by
  refine ⟨by decide, ?_⟩
  exact c5_idempotent_creation wCfg PaymentServiceState.init "W5" (Dy.ofInt 10) "d" none
    true (some "G") 0 (Dy.ofInt 7) "other" (some "R") false (some "H") 100 _ _ _
    (by decide)

/-- C8.  `confirmPayment` succeeds exactly from `settled`: it then marks
the job manually confirmed, records the confirmer and the confirmation
timestamp, and moves it to `completed`.  From any other status it fails,
surfaces the job's current status in the result, and leaves the state
entirely unchanged; an unknown job id fails with `Payment job not found`. -/
theorem c8_manual_confirmation (st : PaymentServiceState) (jobId : String)
    (cb : Option String) (now : ℤ) :
    (∀ job, alookup st.jobs jobId = some job →
      job.status = X402PaymentStatus.settled →
      confirmPayment st jobId cb now =
        ({ st with
            jobs := aset st.jobs jobId
              { job with
                manuallyConfirmed := some true
                confirmedAt := some now
                confirmedBy := cb
                status := X402PaymentStatus.completed
                updatedAt := now } },
          { success := true, status := X402PaymentStatus.completed, error := none })) ∧
    (∀ job, alookup st.jobs jobId = some job →
      job.status ≠ X402PaymentStatus.settled →
      confirmPayment st jobId cb now =
        (st,
          { success := false
            status := job.status
            error := some ("Cannot confirm payment in status: "
              ++ statusStr job.status ++ ". Expected: settled") })) ∧
    (alookup st.jobs jobId = none →
      confirmPayment st jobId cb now =
        (st,
          { success := false
            status := X402PaymentStatus.failed
            error := some "Payment job not found" })) := by
  refine ⟨?_, ?_, ?_⟩
  · intro job hj hs
    unfold confirmPayment updateJobStatus
    simp only [hj, alookup_aset_self, aset_aset]
    rw [if_neg (by simp [hs])]
  · intro job hj hs
    unfold confirmPayment
    simp only [hj]
    rw [if_pos hs]
  · intro hj
    unfold confirmPayment
    simp only [hj]

/-- C8, witness: on a handcrafted registry holding one settled job, the
three cases of `c8_manual_confirmation` are exercised at concrete
arguments: confirmation from `settled` completes and records the
confirmer and timestamp; confirmation of a `payment_required` job fails
with that status surfaced and no state change; an unknown id fails. -/
theorem c8_manual_confirmation_witness :
    (∃ job, alookup (runEvents wCfg [we1, we2, we5]).jobs "x402_0" = some job ∧
      job.status = X402PaymentStatus.settled ∧
      confirmPayment (runEvents wCfg [we1, we2, we5]) "x402_0" (some "agent") 9 =
        ({ (runEvents wCfg [we1, we2, we5]) with
            jobs := aset (runEvents wCfg [we1, we2, we5]).jobs "x402_0"
                { job with
                  manuallyConfirmed := some true
                  confirmedAt := some 9
                  confirmedBy := some "agent"
                  status := X402PaymentStatus.completed
                  updatedAt := 9 } },
          { success := true, status := X402PaymentStatus.completed, error := none })) ∧
    (∃ job, alookup (runEvents wCfg [we1]).jobs "x402_0" = some job ∧
      job.status ≠ X402PaymentStatus.settled ∧
      confirmPayment (runEvents wCfg [we1]) "x402_0" none 9 =
        (runEvents wCfg [we1],
          { success := false
            status := job.status
            error := some ("Cannot confirm payment in status: "
              ++ statusStr job.status ++ ". Expected: settled") })) ∧
    confirmPayment (runEvents wCfg [we1]) "nope" none 9 =
      (runEvents wCfg [we1],
        { success := false
          status := X402PaymentStatus.failed
          error := some "Payment job not found" }) := by
  refine ⟨?_, ?_, ?_⟩
  · refine ⟨(alookup (runEvents wCfg [we1, we2, we5]).jobs "x402_0").getD wDummyJob,
      by decide, by decide, ?_⟩
    exact (c8_manual_confirmation (runEvents wCfg [we1, we2, we5]) "x402_0"
        (some "agent") 9).1
      ((alookup (runEvents wCfg [we1, we2, we5]).jobs "x402_0").getD wDummyJob)
      (by decide) (by decide)
  · refine ⟨(alookup (runEvents wCfg [we1]).jobs "x402_0").getD wDummyJob,
      by decide, by decide, ?_⟩
    exact (c8_manual_confirmation (runEvents wCfg [we1]) "x402_0" none 9).2.1
      ((alookup (runEvents wCfg [we1]).jobs "x402_0").getD wDummyJob)
      (by decide) (by decide)
  · exact (c8_manual_confirmation (runEvents wCfg [we1]) "nope" none 9).2.2 (by decide)

/-! ### Base64 (`Buffer.toString('base64')` / `Buffer.from(_, 'base64')`)

Bytes are naturals below 256.  Encoding takes input groups of three bytes
to four alphabet characters, with `=` padding for final groups of one or
two bytes; decoding inverts group by group. -/

/-- Index of a character in a list (first match). -/
def idxOfAux : List Char → ℕ → Char → Option ℕ
  | [], _, _ => none
  | a :: rest, i, c => if a = c then some i else idxOfAux rest (i + 1) c

/-- The base64 alphabet. -/
def b64chars : List Char :=
  "ABCDEFGHIJKLMNOPQRSTUVWXYZabcdefghijklmnopqrstuvwxyz0123456789+/".toList

/-- Alphabet character of a sextet. -/
def sextetChar (n : ℕ) : Char := b64chars.getD n 'A'

/-- Sextet of an alphabet character. -/
def charSextet (c : Char) : Option ℕ := idxOfAux b64chars 0 c

theorem charSextet_sextetChar (s : ℕ) (h : s < 64) :
    charSextet (sextetChar s) = some s := by
  revert h
  revert s
  decide

theorem sextetChar_ne_pad (s : ℕ) : sextetChar s ≠ '=' := by
  by_cases h : s < 64
  · revert h
    revert s
    decide
  · unfold sextetChar
    rw [List.getD_eq_default]
    · decide
    · have : b64chars.length = 64 := by decide
      omega

/-- `Buffer.toString('base64')`. -/
def b64encode : List ℕ → List Char
  | [] => []
  | [b0] => [sextetChar (b0 / 4), sextetChar (b0 % 4 * 16), '=', '=']
  | [b0, b1] =>
    [sextetChar (b0 / 4), sextetChar (b0 % 4 * 16 + b1 / 16),
     sextetChar (b1 % 16 * 4), '=']
  | b0 :: b1 :: b2 :: rest =>
    sextetChar (b0 / 4) :: sextetChar (b0 % 4 * 16 + b1 / 16) ::
    sextetChar (b1 % 16 * 4 + b2 / 64) :: sextetChar (b2 % 64) :: b64encode rest

/-- `Buffer.from(_, 'base64')`: decode four characters at a time, the
last group possibly padded. -/
def b64decode : List Char → Option (List ℕ)
  | [] => some []
  | c0 :: c1 :: c2 :: c3 :: rest =>
    match rest with
    | [] =>
      if c3 = '=' then
        if c2 = '=' then
          match charSextet c0, charSextet c1 with
          | some s0, some s1 => some [s0 * 4 + s1 / 16]
          | _, _ => none
        else
          match charSextet c0, charSextet c1, charSextet c2 with
          | some s0, some s1, some s2 =>
            some [s0 * 4 + s1 / 16, s1 % 16 * 16 + s2 / 4]
          | _, _, _ => none
      else
        match charSextet c0, charSextet c1, charSextet c2, charSextet c3 with
        | some s0, some s1, some s2, some s3 =>
          some [s0 * 4 + s1 / 16, s1 % 16 * 16 + s2 / 4, s2 % 4 * 64 + s3]
        | _, _, _, _ => none
    | _ :: _ =>
      match charSextet c0, charSextet c1, charSextet c2, charSextet c3,
          b64decode rest with
      | some s0, some s1, some s2, some s3, some tail =>
        some ((s0 * 4 + s1 / 16) :: (s1 % 16 * 16 + s2 / 4) :: (s2 % 4 * 64 + s3) :: tail)
      | _, _, _, _, _ => none
  | _ => none

theorem b64encode_eq_nil : ∀ {l : List ℕ}, b64encode l = [] → l = []
  | [], _ => rfl
  | [_], h => by simp [b64encode] at h
  | [_, _], h => by simp [b64encode] at h
  | _ :: _ :: _ :: _, h => by simp [b64encode] at h

theorem b64_roundtrip : ∀ (bs : List ℕ), (∀ b ∈ bs, b < 256) →
    b64decode (b64encode bs) = some bs := by
  intro bs
  induction bs using b64encode.induct with
  | case1 =>
    intro _
    rfl
  | case2 b0 =>
    intro h
    have hb0 : b0 < 256 := h b0 (by simp)
    simp only [b64encode, b64decode]
    rw [if_pos trivial, if_pos trivial,
      charSextet_sextetChar _ (by omega), charSextet_sextetChar _ (by omega)]
    simp only [Option.some.injEq, List.cons.injEq, and_true]
    omega
  | case3 b0 b1 =>
    intro h
    have hb0 : b0 < 256 := h b0 (by simp)
    have hb1 : b1 < 256 := h b1 (by simp)
    simp only [b64encode, b64decode]
    rw [if_pos trivial, if_neg (sextetChar_ne_pad _),
      charSextet_sextetChar _ (by omega), charSextet_sextetChar _ (by omega),
      charSextet_sextetChar _ (by omega)]
    simp only [Option.some.injEq, List.cons.injEq, and_true]
    omega
  | case4 b0 b1 b2 rest ih =>
    intro h
    have hb0 : b0 < 256 := h b0 (by simp)
    have hb1 : b1 < 256 := h b1 (by simp)
    have hb2 : b2 < 256 := h b2 (by simp)
    have hrest := ih (fun b hb => h b (by simp [hb]))
    cases hr : b64encode rest with
    | nil =>
      have hnil : rest = [] := b64encode_eq_nil hr
      subst hnil
      simp only [b64encode, b64decode]
      rw [if_neg (sextetChar_ne_pad _),
        charSextet_sextetChar _ (by omega), charSextet_sextetChar _ (by omega),
        charSextet_sextetChar _ (by omega), charSextet_sextetChar _ (by omega)]
      simp only [Option.some.injEq, List.cons.injEq, and_true]
      omega
    | cons hd tl =>
      rw [hr] at hrest
      simp only [b64encode, hr, b64decode]
      rw [charSextet_sextetChar _ (by omega), charSextet_sextetChar _ (by omega),
        charSextet_sextetChar _ (by omega), charSextet_sextetChar _ (by omega), hrest]
      simp only [Option.some.injEq, List.cons.injEq]
      refine ⟨by omega, by omega, by omega, trivial⟩

/-! ### UTF-8 (`Buffer.from(string)` / `buffer.toString('utf-8')`)

JavaScript strings here are sequences of Unicode scalar values (the
settlement objects contain no lone surrogates), i.e. `List Char`. -/

/-- UTF-8 bytes of one scalar value. -/
def utf8EncodeChar (c : Char) : List ℕ :=
  let v := c.toNat
  if v < 128 then [v]
  else if v < 2048 then [192 + v / 64, 128 + v % 64]
  else if v < 65536 then [224 + v / 4096, 128 + v / 64 % 64, 128 + v % 64]
  else [240 + v / 262144, 128 + v / 4096 % 64, 128 + v / 64 % 64, 128 + v % 64]

/-- UTF-8 bytes of a string. -/
def utf8Encode (cs : List Char) : List ℕ := cs.bind utf8EncodeChar

/-- UTF-8 decoding of a byte stream (strict on the byte-count structure;
faithful on well-formed input, which is all that reaches it here). -/
def utf8Decode : List ℕ → Option (List Char)
  | [] => some []
  | b :: bs =>
    if b < 128 then
      (utf8Decode bs).map (fun cs => Char.ofNat b :: cs)
    else if b < 224 then
      match bs with
      | [] => none
      | b1 :: bs2 =>
        (utf8Decode bs2).map (fun cs => Char.ofNat ((b - 192) * 64 + (b1 - 128)) :: cs)
    else if b < 240 then
      match bs with
      | [] => none
      | b1 :: rest1 =>
        match rest1 with
        | [] => none
        | b2 :: bs2 =>
          (utf8Decode bs2).map (fun cs =>
            Char.ofNat ((b - 224) * 4096 + (b1 - 128) * 64 + (b2 - 128)) :: cs)
    else
      match bs with
      | [] => none
      | b1 :: rest1 =>
        match rest1 with
        | [] => none
        | b2 :: rest2 =>
          match rest2 with
          | [] => none
          | b3 :: bs2 =>
            (utf8Decode bs2).map (fun cs =>
              Char.ofNat ((b - 240) * 262144 + (b1 - 128) * 4096
                + (b2 - 128) * 64 + (b3 - 128)) :: cs)

theorem char_toNat_lt (c : Char) : c.toNat < 1114112 := by
  have h := c.valid
  show c.val.toNat < 1114112
  rcases h with h | h
  · omega
  · exact h.2

theorem utf8EncodeChar_lt (c : Char) : ∀ b ∈ utf8EncodeChar c, b < 256 := by
  have hv := char_toNat_lt c
  simp only [utf8EncodeChar]
  split_ifs with h1 h2 h3 <;> intro b hb <;> simp at hb <;> omega

theorem utf8Encode_lt (cs : List Char) : ∀ b ∈ utf8Encode cs, b < 256 := by
  intro b hb
  rw [utf8Encode, List.mem_bind] at hb
  obtain ⟨c, _, hc⟩ := hb
  exact utf8EncodeChar_lt c b hc

theorem utf8Decode_encodeChar (c : Char) (bs : List ℕ) (cs : List Char)
    (h : utf8Decode bs = some cs) :
    utf8Decode (utf8EncodeChar c ++ bs) = some (c :: cs) := by
  have hv := char_toNat_lt c
  have hofNat : Char.ofNat c.toNat = c := Char.ofNat_toNat c
  by_cases h1 : c.toNat < 128
  · have he : utf8EncodeChar c = [c.toNat] := by
      simp only [utf8EncodeChar]
      rw [if_pos h1]
    rw [he, List.singleton_append]
    unfold utf8Decode
    rw [if_pos h1]
    simp only [h, hofNat, Option.map]
  · by_cases h2 : c.toNat < 2048
    · have he : utf8EncodeChar c = [192 + c.toNat / 64, 128 + c.toNat % 64] := by
        simp only [utf8EncodeChar]
        rw [if_neg h1, if_pos h2]
      rw [he, List.cons_append, List.singleton_append]
      unfold utf8Decode
      rw [if_neg (by omega), if_pos (by omega)]
      have harith : (192 + c.toNat / 64 - 192) * 64 + (128 + c.toNat % 64 - 128) =
          c.toNat := by omega
      simp only [h, harith, hofNat, Option.map]
    · by_cases h3 : c.toNat < 65536
      · have he : utf8EncodeChar c =
            [224 + c.toNat / 4096, 128 + c.toNat / 64 % 64, 128 + c.toNat % 64] := by
          simp only [utf8EncodeChar]
          rw [if_neg h1, if_neg h2, if_pos h3]
        rw [he, List.cons_append, List.cons_append, List.singleton_append]
        unfold utf8Decode
        rw [if_neg (by omega), if_neg (by omega), if_pos (by omega)]
        have harith : (224 + c.toNat / 4096 - 224) * 4096
            + (128 + c.toNat / 64 % 64 - 128) * 64 + (128 + c.toNat % 64 - 128) =
            c.toNat := by omega
        simp only [h, harith, hofNat, Option.map]
      · have he : utf8EncodeChar c =
            [240 + c.toNat / 262144, 128 + c.toNat / 4096 % 64,
             128 + c.toNat / 64 % 64, 128 + c.toNat % 64] := by
          simp only [utf8EncodeChar]
          rw [if_neg h1, if_neg h2, if_neg h3]
        rw [he, List.cons_append, List.cons_append, List.cons_append,
          List.singleton_append]
        unfold utf8Decode
        rw [if_neg (by omega), if_neg (by omega), if_neg (by omega)]
        have harith : (240 + c.toNat / 262144 - 240) * 262144
            + (128 + c.toNat / 4096 % 64 - 128) * 4096
            + (128 + c.toNat / 64 % 64 - 128) * 64 + (128 + c.toNat % 64 - 128) =
            c.toNat := by omega
        simp only [h, harith, hofNat, Option.map]

theorem utf8Decode_encode (cs : List Char) : utf8Decode (utf8Encode cs) = some cs := by
  induction cs with
  | nil => rfl
  | cons c rest ih =>
    rw [show utf8Encode (c :: rest) = utf8EncodeChar c ++ utf8Encode rest from rfl]
    exact utf8Decode_encodeChar c _ rest ih

/-! ### JSON (`JSON.stringify` / `JSON.parse`)

The settlement header carries one flat JSON object whose values are
strings, booleans or `null` (never numbers or nested objects), so the
printer and parser are modelled for exactly that grammar.  The printer
mirrors `JSON.stringify` (no whitespace, standard short escapes, `\u00XX`
for other control characters); the parser accepts any field order and all
standard escapes, as `JSON.parse` does on this grammar. -/

/-- A JSON scalar: `null`, a boolean, or a string. -/
inductive JScalar where
  | jnull
  | jbool (b : Bool)
  | jstr (s : List Char)
deriving DecidableEq

/-- Opening brace. -/
def obrace : Char := Char.ofNat 123

/-- Closing brace. -/
def cbrace : Char := Char.ofNat 125

/-- Lowercase hex digit. -/
def hexDigit (n : ℕ) : Char := "0123456789abcdef".toList.getD n '0'

/-- Value of a lowercase hex digit. -/
def hexVal (c : Char) : Option ℕ := idxOfAux "0123456789abcdef".toList 0 c

theorem hexVal_hexDigit (n : ℕ) (h : n < 16) : hexVal (hexDigit n) = some n := by
  revert h
  revert n
  decide

/-- `JSON.stringify`'s escaping of one string character. -/
def escChar (c : Char) : List Char :=
  if c = '"' then ['\\', '"']
  else if c = '\\' then ['\\', '\\']
  else if c = Char.ofNat 8 then ['\\', 'b']
  else if c = Char.ofNat 9 then ['\\', 't']
  else if c = Char.ofNat 10 then ['\\', 'n']
  else if c = Char.ofNat 12 then ['\\', 'f']
  else if c = Char.ofNat 13 then ['\\', 'r']
  else if c.toNat < 32 then
    ['\\', 'u', '0', '0', hexDigit (c.toNat / 16), hexDigit (c.toNat % 16)]
  else [c]

/-- Print a JSON string literal. -/
def printJStr (s : List Char) : List Char := '"' :: (s.bind escChar ++ ['"'])

/-- Print a JSON scalar. -/
def printJScalar : JScalar → List Char
  | .jnull => "null".toList
  | .jbool true => "true".toList
  | .jbool false => "false".toList
  | .jstr s => printJStr s

/-- Print the comma-separated fields of an object. -/
def printFields : List (List Char × JScalar) → List Char
  | [] => []
  | [(k, v)] => printJStr k ++ ':' :: printJScalar v
  | (k, v) :: rest => printJStr k ++ ':' :: printJScalar v ++ ',' :: printFields rest

/-- Print a flat JSON object, `JSON.stringify` style. -/
def printJObj (fields : List (List Char × JScalar)) : List Char :=
  obrace :: (printFields fields ++ [cbrace])

/-- Map a short escape character back to the character it denotes. -/
def unescapeChar (e : Char) : Option Char :=
  if e = '"' then some '"'
  else if e = '\\' then some '\\'
  else if e = '/' then some '/'
  else if e = 'b' then some (Char.ofNat 8)
  else if e = 'f' then some (Char.ofNat 12)
  else if e = 'n' then some (Char.ofNat 10)
  else if e = 'r' then some (Char.ofNat 13)
  else if e = 't' then some (Char.ofNat 9)
  else none

/-- Parse the body of a JSON string literal after its opening quote,
returning the content and the input after the closing quote. -/
def parseJStrBody : List Char → Option (List Char × List Char)
  | [] => none
  | c :: rest =>
    if c = '"' then some ([], rest)
    else if c = '\\' then
      match rest with
      | [] => none
      | e :: rest2 =>
        if e = 'u' then
          match rest2 with
          | h1 :: h2 :: h3 :: h4 :: rest3 =>
            match hexVal h1, hexVal h2, hexVal h3, hexVal h4 with
            | some a, some b, some c2, some d =>
              (parseJStrBody rest3).map (fun p =>
                (Char.ofNat (a * 4096 + b * 256 + c2 * 16 + d) :: p.1, p.2))
            | _, _, _, _ => none
          | _ => none
        else
          match unescapeChar e with
          | some u => (parseJStrBody rest2).map (fun p => (u :: p.1, p.2))
          | none => none
    else
      (parseJStrBody rest).map (fun p => (c :: p.1, p.2))

/-- Parse one JSON scalar. -/
def parseJScalar : List Char → Option (JScalar × List Char)
  | [] => none
  | c :: rest =>
    if c = '"' then (parseJStrBody rest).map (fun p => (JScalar.jstr p.1, p.2))
    else if c = 'n' then
      if rest.take 3 = "ull".toList then some (.jnull, rest.drop 3) else none
    else if c = 't' then
      if rest.take 3 = "rue".toList then some (.jbool true, rest.drop 3) else none
    else if c = 'f' then
      if rest.take 4 = "alse".toList then some (.jbool false, rest.drop 4) else none
    else none

/-- Parse the comma-separated fields of an object (at least one). -/
def parseFields : ℕ → List Char → Option (List (List Char × JScalar) × List Char)
  | 0, _ => none
  | fuel + 1, cs =>
    match cs with
    | [] => none
    | c :: rest =>
      if c = '"' then
        match parseJStrBody rest with
        | none => none
        | some (k, r1) =>
          match r1 with
          | [] => none
          | d :: r2 =>
            if d = ':' then
              match parseJScalar r2 with
              | none => none
              | some (v, r3) =>
                match r3 with
                | [] => some ([(k, v)], [])
                | e :: r4 =>
                  if e = ',' then
                    (parseFields fuel r4).map (fun p => ((k, v) :: p.1, p.2))
                  else some ([(k, v)], e :: r4)
            else none
      else none

/-- Parse a flat JSON object. -/
def parseJObj (cs : List Char) : Option (List (List Char × JScalar) × List Char) :=
  match cs with
  | [] => none
  | c :: rest =>
    if c = obrace then
      match rest with
      | [] => none
      | d :: rest2 =>
        if d = cbrace then some ([], rest2)
        else
          match parseFields rest.length rest with
          | some (fs, r) =>
            match r with
            | e :: r2 => if e = cbrace then some (fs, r2) else none
            | [] => none
          | none => none
    else none

/-! ### Settlement header codec (`encodeSettlementHeader` / `decodeSettlementHeader`)

`JSON.stringify` writes the object's fields in declaration order, omitting
the optional fields (`network`, `payer`, `currency`) when they are absent
and printing `null` for the nullable fields (`transaction`, `errorReason`);
`JSON.parse` recovers them by key. -/

/-- The string form of a payment method, as it appears in JSON. -/
def methodStr : PaymentMethodType → String
  | .crypto => "crypto"
  | .fiat => "fiat"

/-- JSON value of a `string | null` field. -/
def jsonOfNullable : Option String → JScalar
  | none => .jnull
  | some s => .jstr s.data

/-- The fields `JSON.stringify` emits for a settlement response, in
declaration order; optional fields that are `undefined` are omitted. -/
def toJsonFields (r : SettlementResponse) : List (List Char × JScalar) :=
  [("success".toList, .jbool r.success),
   ("type".toList, .jstr (methodStr r.type).data),
   ("transaction".toList, jsonOfNullable r.transaction)]
  ++ (match r.network with | none => [] | some s => [("network".toList, JScalar.jstr s.data)])
  ++ (match r.payer with | none => [] | some s => [("payer".toList, JScalar.jstr s.data)])
  ++ (match r.currency with | none => [] | some s => [("currency".toList, JScalar.jstr s.data)])
  ++ [("errorReason".toList, jsonOfNullable r.errorReason)]

/-- Key lookup among parsed JSON fields. -/
def jlookup : List (List Char × JScalar) → List Char → Option JScalar
  | [], _ => none
  | (k, v) :: rest, key => if k = key then some v else jlookup rest key

/-- Recover a `PaymentMethodType` from its JSON string. -/
def methodOfStr (s : List Char) : Option PaymentMethodType :=
  if s = "crypto".toList then some .crypto
  else if s = "fiat".toList then some .fiat
  else none

/-- Read a `string | null` field (the key must be present). -/
def nullableOfJ : Option JScalar → Option (Option String)
  | some .jnull => some none
  | some (.jstr s) => some (some (String.mk s))
  | _ => none

/-- Read an optional string field (an absent key means `undefined`). -/
def optStrOfJ : Option JScalar → Option (Option String)
  | none => some none
  | some (.jstr s) => some (some (String.mk s))
  | _ => none

/-- Rebuild a settlement response from parsed JSON fields, as field access
on the result of `JSON.parse` does. -/
def fromJsonFields (fields : List (List Char × JScalar)) : Option SettlementResponse :=
  match jlookup fields "success".toList with
  | some (.jbool b) =>
    match jlookup fields "type".toList with
    | some (.jstr ts) =>
      match methodOfStr ts with
      | some ty =>
        match nullableOfJ (jlookup fields "transaction".toList) with
        | some tx =>
          match optStrOfJ (jlookup fields "network".toList) with
          | some nw =>
            match optStrOfJ (jlookup fields "payer".toList) with
            | some py =>
              match optStrOfJ (jlookup fields "currency".toList) with
              | some cur =>
                match nullableOfJ (jlookup fields "errorReason".toList) with
                | some er => some (SettlementResponse.mk b ty tx nw py cur er)
                | none => none
              | none => none
            | none => none
          | none => none
        | none => none
      | none => none
    | _ => none
  | _ => none

/-- `encodeSettlementHeader`: `Buffer.from(JSON.stringify(response)).toString('base64')`. -/
def encodeSettlementHeader (response : SettlementResponse) : List Char :=
  b64encode (utf8Encode (printJObj (toJsonFields response)))

/-- `decodeSettlementHeader`: decode base64, decode UTF-8, `JSON.parse`. -/
def decodeSettlementHeader (encoded : List Char) : Option SettlementResponse :=
  match b64decode encoded with
  | none => none
  | some bytes =>
    match utf8Decode bytes with
    | none => none
    | some cs =>
      match parseJObj cs with
      | some (fields, rest) => if rest = [] then fromJsonFields fields else none
      | none => none

theorem parseJStrBody_twoCharEsc (e u : Char) (T : List Char) (p : List Char × List Char)
    (he : ¬ e = 'u') (hu : unescapeChar e = some u) (ih : parseJStrBody T = some p) :
    parseJStrBody ('\\' :: e :: T) = some (u :: p.1, p.2) := by
  unfold parseJStrBody
  rw [if_neg (by decide), if_pos rfl]
  simp only [if_neg he, hu, ih, Option.map]

theorem parseJStrBody_escChar (c : Char) (T : List Char) (p : List Char × List Char)
    (ih : parseJStrBody T = some p) :
    parseJStrBody (escChar c ++ T) = some (c :: p.1, p.2) := by
  unfold escChar
  split_ifs with h1 h2 h3 h4 h5 h6 h7 h8
  · subst h1
    exact parseJStrBody_twoCharEsc _ _ _ _ (by decide) (by decide) ih
  · subst h2
    exact parseJStrBody_twoCharEsc _ _ _ _ (by decide) (by decide) ih
  · subst h3
    exact parseJStrBody_twoCharEsc _ _ _ _ (by decide) (by decide) ih
  · subst h4
    exact parseJStrBody_twoCharEsc _ _ _ _ (by decide) (by decide) ih
  · subst h5
    exact parseJStrBody_twoCharEsc _ _ _ _ (by decide) (by decide) ih
  · subst h6
    exact parseJStrBody_twoCharEsc _ _ _ _ (by decide) (by decide) ih
  · subst h7
    exact parseJStrBody_twoCharEsc _ _ _ _ (by decide) (by decide) ih
  · simp only [List.cons_append]
    unfold parseJStrBody
    rw [if_neg (by decide), if_pos rfl]
    have hv1 : hexVal '0' = some 0 := by decide
    have hv2 : hexVal (hexDigit (c.toNat / 16)) = some (c.toNat / 16) :=
      hexVal_hexDigit _ (by omega)
    have hv3 : hexVal (hexDigit (c.toNat % 16)) = some (c.toNat % 16) :=
      hexVal_hexDigit _ (by omega)
    have harith : 0 * 4096 + 0 * 256 + c.toNat / 16 * 16 + c.toNat % 16 = c.toNat := by
      omega
    simp only [reduceIte, hv1, hv2, hv3, List.nil_append, ih, Option.map, harith,
      Char.ofNat_toNat]
  · simp only [List.singleton_append]
    unfold parseJStrBody
    rw [if_neg h1, if_neg h2]
    simp only [ih, Option.map]

theorem parseJStrBody_print (s rest : List Char) :
    parseJStrBody (s.bind escChar ++ '"' :: rest) = some (s, rest) := by
  induction s with
  | nil =>
    simp only [List.nil_bind, List.nil_append]
    unfold parseJStrBody
    rw [if_pos rfl]
  | cons c s ih =>
    have hb : (c :: s).bind escChar = escChar c ++ s.bind escChar := rfl
    rw [hb, List.append_assoc]
    exact parseJStrBody_escChar c _ (s, rest) ih

theorem parseJScalar_print (v : JScalar) (rest : List Char) :
    parseJScalar (printJScalar v ++ rest) = some (v, rest) := by
  cases v with
  | jnull => rfl
  | jbool b =>
    cases b with
    | false => rfl
    | true => rfl
  | jstr s =>
    have harg : printJScalar (JScalar.jstr s) ++ rest =
        '"' :: (s.bind escChar ++ '"' :: rest) := by
      simp [printJScalar, printJStr, List.append_assoc]
    rw [harg]
    unfold parseJScalar
    simp only [if_true, parseJStrBody_print, Option.map_some']

theorem parseFields_print (fs : List (List Char × JScalar)) :
    ∀ (fuel : ℕ) (rest : List Char), fs ≠ [] → fs.length ≤ fuel →
    (∀ r', rest ≠ ',' :: r') →
    parseFields fuel (printFields fs ++ rest) = some (fs, rest) := by
  induction fs with
  | nil => intro _ _ hne _ _; exact absurd rfl hne
  | cons kv fs' ih =>
    intro fuel rest _ hlen hrest
    obtain ⟨k, v⟩ := kv
    cases fuel with
    | zero => simp at hlen
    | succ fuel' =>
      cases fs' with
      | nil =>
        have harg : printFields [(k, v)] ++ rest =
            '"' :: (k.bind escChar ++ '"' :: (':' :: (printJScalar v ++ rest))) := by
          simp [printFields, printJStr, List.append_assoc]
        rw [harg]
        unfold parseFields
        simp only [if_true, parseJStrBody_print, parseJScalar_print]
        cases rest with
        | nil => rfl
        | cons e r4 =>
          have he : ¬ e = ',' := fun h => hrest r4 (by rw [h])
          simp only [if_neg he]
      | cons f2 fs'' =>
        have harg : printFields ((k, v) :: f2 :: fs'') ++ rest =
            '"' :: (k.bind escChar ++ '"' ::
              (':' :: (printJScalar v ++ ',' :: (printFields (f2 :: fs'') ++ rest)))) := by
          simp [printFields, printJStr, List.append_assoc]
        rw [harg]
        unfold parseFields
        simp only [if_true, parseJStrBody_print, parseJScalar_print]
        rw [ih fuel' rest (by simp)
          (by simp only [List.length_cons] at hlen ⊢; omega) hrest]
        rfl

theorem printFields_length (fs : List (List Char × JScalar)) :
    fs.length ≤ (printFields fs).length + 1 := by
  induction fs with
  | nil => simp [printFields]
  | cons kv fs' ih =>
    obtain ⟨k, v⟩ := kv
    cases fs' with
    | nil => simp [printFields]
    | cons f2 fs'' =>
      simp only [printFields, List.length_append, List.length_cons] at *
      omega

theorem printFields_cons (k : List Char) (v : JScalar)
    (fs' : List (List Char × JScalar)) :
    ∃ t, printFields ((k, v) :: fs') = '"' :: t := by
  cases fs' with
  | nil => exact ⟨_, rfl⟩
  | cons f2 fs'' => exact ⟨_, rfl⟩

theorem parseJObj_print (fs : List (List Char × JScalar)) :
    parseJObj (printJObj fs) = some (fs, []) := by
  cases fs with
  | nil => decide
  | cons kv fs' =>
    obtain ⟨k, v⟩ := kv
    obtain ⟨t, ht⟩ := printFields_cons k v fs'
    have hra : printFields ((k, v) :: fs') ++ [cbrace] = '"' :: (t ++ [cbrace]) := by
      rw [ht]; rfl
    unfold printJObj parseJObj
    simp only [if_true]
    rw [hra]
    have hq : ¬ ('"' : Char) = cbrace := by decide
    simp only [if_neg hq, if_false]
    rw [← hra]
    rw [parseFields_print ((k, v) :: fs') _ [cbrace] (by simp)
      (by have := printFields_length ((k, v) :: fs')
          simp only [List.length_append, List.length_cons, List.length_nil] at this ⊢
          omega)
      (by intro r' h
          have : cbrace = ',' := by injection h
          exact absurd this (by decide))]
    simp only [if_true]

theorem fromJson_toJson (r : SettlementResponse) :
    fromJsonFields (toJsonFields r) = some r := by
  obtain ⟨b, ty, tx, nw, py, cur, er⟩ := r
  cases ty <;> cases tx <;> cases nw <;> cases py <;> cases cur <;> cases er <;> rfl

/-- C7: for every settlement response value, decoding the base64(JSON)
encoding yields exactly the original value, including when the optional
fields are absent or the nullable fields are null:
`decodeSettlementHeader (encodeSettlementHeader v) = some v`. -/
theorem c7_roundtrip (v : SettlementResponse) :
    decodeSettlementHeader (encodeSettlementHeader v) = some v := by
  unfold encodeSettlementHeader decodeSettlementHeader
  rw [b64_roundtrip _ (utf8Encode_lt _)]
  simp only [utf8Decode_encode, parseJObj_print, if_true, fromJson_toJson]

end X402
